import Mathlib

/-!
SimpleCharacterDriver

A shallow embedding of `src/SimpleCharacterDriver.c` and a verification of
its read / write / open / close behaviour.

Modelling conventions.

* C `int` / `ssize_t` values are `Int`.  The two loop counters `bytesRead`
  and `bytesWritten` start at 0 and are only ever incremented, so they are
  `Nat`; the mixed comparison `bytesRead < byteCount` (an `int` against a
  `size_t`) is then the comparison of two naturals.  No counter can
  overflow: every increment follows a successful, bounds-checked access to
  a 256-entry array.
* `char Message[MAX_MESSAGE_LEN]` is a `List UInt8`; an array subscript is a
  checked access and a subscript outside the array is the fault
  `Fault.badIndex` (undefined behaviour in C, not a value returned to the
  caller).
* `filp` is a natural number naming a `struct file`; `private_data` maps it
  to the `kmalloc`ed record, `none` once that record was `kfree`d.
* The user buffer of `read` is the list of bytes stored by `put_user`, the
  byte stored at `buf + i` being entry `i`.  The user buffer of `write` is
  a list; `get_user` at an offset beyond it yields 0, as the kernel's
  `get_user` zeroes its destination when the access fails.
* `while` loops are recursive functions with a fuel argument; running out
  of fuel is the fault `Fault.outOfFuel`, so that a result `.ok` is always
  the result of the complete loop.
-/

namespace SimpleCharacterDriver

/-- The constant `MINOR_DEV_MAX_NUM` of the source. -/
def MINOR_DEV_MAX_NUM : Nat := 5

/-- The constant `MAX_MESSAGE_LEN` of the source. -/
def MAX_MESSAGE_LEN : Nat := 256

/-- The per-minor-device record: the message buffer and its valid length. -/
structure MyMinorDevContext_t where
  Message : List UInt8
  MessageLen : Int
deriving DecidableEq, Repr

/-- The global table of minor-device records. -/
structure MyGlobalData_t where
  Contexts : List MyMinorDevContext_t
deriving DecidableEq, Repr

/-- The per-open-file record hung off `filp->private_data`. -/
structure MyFHPrivateData_t where
  minorDevice : Int
  byteStartIndex : Int
deriving DecidableEq, Repr

/-- Ways in which an execution leaves defined behaviour. -/
inductive Fault where
  | badIndex
  | badPointer
  | outOfFuel
deriving DecidableEq, Repr

/-- The memory the driver works on: the static `MyGlobalData` and, for every
`struct file` handed out so far, the record its `private_data` points to. -/
structure DriverState where
  MyGlobalData : MyGlobalData_t
  private_data : List (Option MyFHPrivateData_t)
deriving DecidableEq, Repr

/-- Checked array subscript `arr[i]` with a C `int` index. -/
def subscript {α : Type} (arr : List α) (i : Int) : Except Fault α :=
  if 0 ≤ i then
    match arr[i.toNat]? with
    | some x => .ok x
    | none => .error .badIndex
  else .error .badIndex

/-- Checked array store `arr[i] = x` with a C `int` index. -/
def store {α : Type} (arr : List α) (i : Int) (x : α) : Except Fault (List α) :=
  if 0 ≤ i ∧ i.toNat < arr.length then .ok (arr.set i.toNat x) else .error .badIndex

/-- The load `MyGlobalData.Contexts[minorDevice].Message[i]`. -/
def loadMessageChar (g : MyGlobalData_t) (minorDevice : Int) (i : Int) : Except Fault UInt8 :=
  match subscript g.Contexts minorDevice with
  | .error e => .error e
  | .ok ctx => subscript ctx.Message i

/-- The store `MyGlobalData.Contexts[minorDevice].Message[i] = c`. -/
def storeMessageChar (g : MyGlobalData_t) (minorDevice : Int) (i : Int) (c : UInt8) :
    Except Fault MyGlobalData_t :=
  match subscript g.Contexts minorDevice with
  | .error e => .error e
  | .ok ctx =>
    match store ctx.Message i c with
    | .error e => .error e
    | .ok msg =>
      match store g.Contexts minorDevice (MyMinorDevContext_t.mk msg ctx.MessageLen) with
      | .error e => .error e
      | .ok cs => .ok (MyGlobalData_t.mk cs)

/-- The store `MyGlobalData.Contexts[minorDevice].MessageLen = len`. -/
def storeMessageLen (g : MyGlobalData_t) (minorDevice : Int) (len : Int) :
    Except Fault MyGlobalData_t :=
  match subscript g.Contexts minorDevice with
  | .error e => .error e
  | .ok ctx =>
    match store g.Contexts minorDevice (MyMinorDevContext_t.mk ctx.Message len) with
    | .error e => .error e
    | .ok cs => .ok (MyGlobalData_t.mk cs)

/-- The `open` entry point: allocate the private record of a fresh `struct file`,
bind it to the inode's minor number and start its cursor at 0.  Returns the
new state, the file and the C return value.  The fresh file is the next free
index of the table and `kmalloc` is taken to succeed (the source does not test
its result).  The minor number is stored as it comes: the source has no range
check. -/
def charDriverFileOpen (st : DriverState) (iminor : Nat) : DriverState × Nat × Int :=
  let myFHPrivateData := MyFHPrivateData_t.mk (iminor : Int) 0
  (DriverState.mk st.MyGlobalData (st.private_data ++ [some myFHPrivateData]),
    st.private_data.length, 0)

/-- The `release` entry point: `kfree` the private record and return 0. -/
def charDriverFileClose (st : DriverState) (filp : Nat) : Except Fault (DriverState × Int) :=
  match st.private_data[filp]? with
  | some (some _) => .ok (DriverState.mk st.MyGlobalData (st.private_data.set filp none), 0)
  | _ => .error .badPointer

/-- The `while` loop of `charDriverFileRead`: returns `bytesRead` and the bytes
handed to `put_user`, in order. -/
def readLoop (g : MyGlobalData_t) (minorDevice startByte messageLen : Int) (byteCount : Nat) :
    Nat → Nat → List UInt8 → Except Fault (Nat × List UInt8)
  | fuel, bytesRead, buf =>
    if bytesRead < byteCount ∧ startByte + (bytesRead : Int) < messageLen then
      match fuel with
      | 0 => .error .outOfFuel
      | fuel + 1 =>
        match loadMessageChar g minorDevice (startByte + (bytesRead : Int)) with
        | .error e => .error e
        | .ok c => readLoop g minorDevice startByte messageLen byteCount fuel (bytesRead + 1)
            (buf ++ [c])
    else .ok (bytesRead, buf)

/-- The `read` entry point.  Returns the new state, the bytes copied to the
caller and the C return value `bytesRead`. -/
def charDriverFileRead (st : DriverState) (filp : Nat) (byteCount : Nat) :
    Except Fault (DriverState × List UInt8 × Int) :=
  match st.private_data[filp]? with
  | some (some myFHPrivateData) =>
    let startByte := myFHPrivateData.byteStartIndex
    match subscript st.MyGlobalData.Contexts myFHPrivateData.minorDevice with
    | .error e => .error e
    | .ok ctx =>
      let messageLen := ctx.MessageLen
      match readLoop st.MyGlobalData myFHPrivateData.minorDevice startByte messageLen
          byteCount byteCount 0 [] with
      | .error e => .error e
      | .ok (bytesRead, buf) =>
        let startByte := startByte + (bytesRead : Int)
        let startByte := if startByte = messageLen then 0 else startByte
        .ok (DriverState.mk st.MyGlobalData
              (st.private_data.set filp
                (some (MyFHPrivateData_t.mk myFHPrivateData.minorDevice startByte))),
            buf, (bytesRead : Int))
  | _ => .error .badPointer

/-- The `while` loop of `charDriverFileWrite`: returns the updated global data
and `bytesWritten`. -/
def writeLoop (minorDevice : Int) (buf : List UInt8) (byteCount : Nat) :
    Nat → MyGlobalData_t → Nat → Except Fault (MyGlobalData_t × Nat)
  | fuel, g, bytesWritten =>
    if bytesWritten < byteCount ∧ bytesWritten < MAX_MESSAGE_LEN then
      match fuel with
      | 0 => .error .outOfFuel
      | fuel + 1 =>
        let c := buf.getD bytesWritten 0
        match storeMessageChar g minorDevice (bytesWritten : Int) c with
        | .error e => .error e
        | .ok g1 => writeLoop minorDevice buf byteCount fuel g1 (bytesWritten + 1)
    else .ok (g, bytesWritten)

/-- The `write` entry point.  Returns the new state and the C return value
`bytesWritten`. -/
def charDriverFileWrite (st : DriverState) (filp : Nat) (buf : List UInt8) (byteCount : Nat) :
    Except Fault (DriverState × Int) :=
  match st.private_data[filp]? with
  | some (some myFHPrivateData) =>
    match writeLoop myFHPrivateData.minorDevice buf byteCount byteCount st.MyGlobalData 0 with
    | .error e => .error e
    | .ok (g, bytesWritten) =>
      match storeMessageLen g myFHPrivateData.minorDevice (bytesWritten : Int) with
      | .error e => .error e
      | .ok g1 => .ok (DriverState.mk g1 st.private_data, (bytesWritten : Int))
  | _ => .error .badPointer

/-- The inner `for (j ...)` loop of `charDriverInit` for one minor device. -/
def initInner (minorDevice : Int) : Nat → MyGlobalData_t → Nat → Except Fault MyGlobalData_t
  | fuel, g, j =>
    if j < MAX_MESSAGE_LEN then
      match fuel with
      | 0 => .error .outOfFuel
      | fuel + 1 =>
        match storeMessageChar g minorDevice (j : Int) 0 with
        | .error e => .error e
        | .ok g1 =>
          match storeMessageLen g1 minorDevice 0 with
          | .error e => .error e
          | .ok g2 => initInner minorDevice fuel g2 (j + 1)
    else .ok g

/-- The outer `for (minorDevice ...)` loop of `charDriverInit`; `cdev_add_ret`
gives the return value of the external `cdev_add` for each minor number. -/
def initOuter (cdev_add_ret : Nat → Int) : Nat → MyGlobalData_t → Nat →
    Except Fault (Int × MyGlobalData_t)
  | fuel, g, minorDevice =>
    if minorDevice < MINOR_DEV_MAX_NUM then
      match fuel with
      | 0 => .error .outOfFuel
      | fuel + 1 =>
        let ret := cdev_add_ret minorDevice
        if ret < 0 then .ok (ret, g)
        else
          match initInner (minorDevice : Int) MAX_MESSAGE_LEN g 0 with
          | .error e => .error e
          | .ok g1 => initOuter cdev_add_ret fuel g1 (minorDevice + 1)
    else .ok (0, g)

/-- The module's init function; `register_ret` and `cdev_add_ret` are the return
values of the external `register_chrdev_region` and `cdev_add`. -/
def charDriverInit (register_ret : Int) (cdev_add_ret : Nat → Int) (g : MyGlobalData_t) :
    Except Fault (Int × MyGlobalData_t) :=
  if register_ret < 0 then .ok (register_ret, g)
  else initOuter cdev_add_ret MINOR_DEV_MAX_NUM g 0

/-- The zero-initialised static storage of `MyGlobalData`. -/
def MyGlobalData_static : MyGlobalData_t :=
  MyGlobalData_t.mk (List.replicate MINOR_DEV_MAX_NUM
    (MyMinorDevContext_t.mk (List.replicate MAX_MESSAGE_LEN 0) 0))

/-- The state right after a successful `charDriverInit`: no file is open. -/
def initialState : DriverState :=
  match charDriverInit 0 (fun _ => 0) MyGlobalData_static with
  | .ok (_, g) => DriverState.mk g []
  | .error _ => DriverState.mk MyGlobalData_static []

/-- A call made on the driver through the file-operations table. -/
inductive Op where
  | open (iminor : Nat)
  | read (filp : Nat) (byteCount : Nat)
  | write (filp : Nat) (buf : List UInt8)
  | close (filp : Nat)
deriving DecidableEq, Repr

/-- What a call hands back to its caller. -/
inductive Result where
  | opened (filp : Nat) (ret : Int)
  | readDone (buf : List UInt8) (ret : Int)
  | written (ret : Int)
  | closed (ret : Int)
deriving DecidableEq, Repr

/-- Dispatch of one call to its entry point.  A `write` call passes a buffer
together with its length as `byteCount`. -/
def step (st : DriverState) : Op → Except Fault (DriverState × Result)
  | .open iminor =>
    match charDriverFileOpen st iminor with
    | (st1, filp, ret) => .ok (st1, .opened filp ret)
  | .read filp byteCount =>
    match charDriverFileRead st filp byteCount with
    | .error e => .error e
    | .ok (st1, buf, ret) => .ok (st1, .readDone buf ret)
  | .write filp buf =>
    match charDriverFileWrite st filp buf buf.length with
    | .error e => .error e
    | .ok (st1, ret) => .ok (st1, .written ret)
  | .close filp =>
    match charDriverFileClose st filp with
    | .error e => .error e
    | .ok (st1, ret) => .ok (st1, .closed ret)

/-- A sequence of calls, one after the other; the results are listed in call order. -/
def run (st : DriverState) : List Op → Except Fault (DriverState × List Result)
  | [] => .ok (st, [])
  | op :: ops =>
    match step st op with
    | .error e => .error e
    | .ok (st1, r) =>
      match run st1 ops with
      | .error e => .error e
      | .ok (st2, rs) => .ok (st2, r :: rs)

/-- The minor device a file is bound to, when the file is open. -/
def minorOf (st : DriverState) (filp : Nat) : Option Int :=
  match st.private_data[filp]? with
  | some (some fh) => some fh.minorDevice
  | _ => none

/-- The cursor of a file, when the file is open. -/
def cursorOf (st : DriverState) (filp : Nat) : Option Int :=
  match st.private_data[filp]? with
  | some (some fh) => some fh.byteStartIndex
  | _ => none

/-- The record of minor device `ch`, when `ch` is inside the table. -/
def contextOf (st : DriverState) (ch : Nat) : Option MyMinorDevContext_t :=
  st.MyGlobalData.Contexts[ch]?

deriving instance DecidableEq for Except


/-- The bytes of `Hello World`, the message of the header comment's example. -/
def helloWorld : List UInt8 := [72, 101, 108, 108, 111, 32, 87, 111, 114, 108, 100]

/-- A device record holding `Hello World` in its 256-byte buffer. -/
def helloContext : MyMinorDevContext_t :=
  MyMinorDevContext_t.mk (helloWorld ++ List.replicate 245 0) 11

/-- Every device holds `Hello World`; files 0 and 1 are open on minor device 0, both
at cursor 0. -/
def helloState : DriverState :=
  DriverState.mk (MyGlobalData_t.mk (List.replicate MINOR_DEV_MAX_NUM helloContext))
    [some (MyFHPrivateData_t.mk 0 0), some (MyFHPrivateData_t.mk 0 0)]

/-- The bytes a call handed to its caller (none for calls other than `read`). -/
def Result.bytes : Result → List UInt8
  | .readDone buf _ => buf
  | _ => []

/-- The first `k` reads of a file that requests the counts `ns 0, ns 1, ...`. -/
def readOps (filp : Nat) (ns : Nat → Nat) (k : Nat) : List Op :=
  (List.range k).map (fun j => Op.read filp (ns j))

/-- The state `st` with the record of `filp` replaced: proof-side shorthand for the
store to `byteStartIndex` at the end of `charDriverFileRead`. -/
def withCursor (st : DriverState) (filp : Nat) (minorDevice c : Int) : DriverState :=
  DriverState.mk st.MyGlobalData
    (st.private_data.set filp (some (MyFHPrivateData_t.mk minorDevice c)))

/-- The requested counts 7, 1, 7, 1, ... of the header comment's example. -/
def helloCounts (i : Nat) : Nat := if i % 2 = 0 then 7 else 1

/-- The results, in call order, of the `read` calls made on file `filp`. -/
def readsOf (filp : Nat) : List Op → List Result → List Result
  | Op.read f _ :: ops, r :: rs =>
    if f = filp then r :: readsOf filp ops rs else readsOf filp ops rs
  | _ :: ops, _ :: rs => readsOf filp ops rs
  | _, _ => []

/-- The byte counts, in call order, requested by the `read` calls made on file `filp`. -/
def countsOf (filp : Nat) : List Op → List Nat
  | Op.read f n :: ops => if f = filp then n :: countsOf filp ops else countsOf filp ops
  | _ :: ops => countsOf filp ops
  | [] => []

/-- Proof-side closed form of what successive reads with counts `ns` deliver to a
single file that starts at cursor `c`, while the device record `ctx` is not written. -/
def soloReads (ctx : MyMinorDevContext_t) : Int → List Nat → List Result
  | _, [] => []
  | c, n :: ns =>
    Result.readDone ((ctx.Message.drop c.toNat).take (min n (ctx.MessageLen - c).toNat))
        ((min n (ctx.MessageLen - c).toNat : Nat) : Int) ::
      soloReads ctx
        (if c + ((min n (ctx.MessageLen - c).toNat : Nat) : Int) = ctx.MessageLen then 0
         else c + ((min n (ctx.MessageLen - c).toNat : Nat) : Int)) ns

/-- Whether a call is a `read` on file `filp`. -/
def Op.isReadOn (filp : Nat) : Op → Bool
  | .read f _ => f == filp
  | _ => false

/-- Calls that cannot end the starvation of file `filp` (bound to device `md`, cursor
`c`): a read on `filp`, or a write through a file bound to `md` that accepts fewer
than `c` bytes. -/
def Op.keepsStarved (st : DriverState) (filp : Nat) (md c : Int) : Op → Bool
  | .read f _ => f == filp
  | .write g buf =>
    minorOf st g == some md && decide (((min buf.length MAX_MESSAGE_LEN : Nat) : Int) < c)
  | _ => false

/-- The state of the header comment's example after file 0 has read 7 bytes and a
writer has replaced the message by the 2 bytes `Hi`. -/
def starvedState : DriverState :=
  DriverState.mk
    (MyGlobalData_t.mk (List.replicate MINOR_DEV_MAX_NUM
      (MyMinorDevContext_t.mk ([72, 105] ++ (helloWorld.drop 2 ++ List.replicate 245 0)) 2)))
    [some (MyFHPrivateData_t.mk 0 7), some (MyFHPrivateData_t.mk 0 0)]

/-- Two files open on minor device 1 whose message is `AB`; file 0 has read one byte. -/
def abState : DriverState :=
  DriverState.mk
    (MyGlobalData_t.mk ((List.replicate MINOR_DEV_MAX_NUM
      (MyMinorDevContext_t.mk (List.replicate MAX_MESSAGE_LEN 0) 0)).set 1
        (MyMinorDevContext_t.mk ([65, 66] ++ List.replicate 254 0) 2)))
    [some (MyFHPrivateData_t.mk 1 1), some (MyFHPrivateData_t.mk 1 0)]

/-- Whether a call is a `write` through a file bound to minor device `ch`. -/
def Op.writesTo (st : DriverState) (ch : Nat) : Op → Bool
  | .write filp _ => minorOf st filp == some (ch : Int)
  | _ => false

/-- The return value of the most recent `write` to minor device `ch` in the run of
`ops` from `st`, and `acc` when the run has no such write. -/
def lastWriteReturn (ch : Nat) : DriverState → List Op → Int → Int
  | _, [], acc => acc
  | st, op :: ops, acc =>
    match step st op with
    | .error _ => acc
    | .ok (st1, r) =>
      match r with
      | .written ret =>
        if Op.writesTo st ch op then lastWriteReturn ch st1 ops ret
        else lastWriteReturn ch st1 ops acc
      | _ => lastWriteReturn ch st1 ops acc

/-- A run that opens two files on minor device 1 and one on minor device 2, writes
through them, reads and closes. -/
def sampleOps : List Op :=
  [Op.open 1, Op.open 1, Op.open 2, Op.write 0 [65, 66], Op.read 1 1, Op.write 2 helloWorld,
    Op.write 1 [67], Op.read 0 1, Op.close 1, Op.read 2 7]

/-- The state after file 0 was opened on minor device 0 and closed again. -/
def closedState : DriverState := DriverState.mk MyGlobalData_static [none]

/-- Whether a call stays on the registered minor numbers: an `open` must name a minor
number below `MINOR_DEV_MAX_NUM`; the other calls name a file, not a minor number. -/
def Op.inRange : Op → Bool
  | .open iminor => decide (iminor < MINOR_DEV_MAX_NUM)
  | _ => true

/-- The bounds the memory of the driver is expected to keep: the table has
`MINOR_DEV_MAX_NUM` records, every buffer has `MAX_MESSAGE_LEN` bytes, every length lies
in `0 .. MAX_MESSAGE_LEN`, and every open file is bound to a minor number inside the
table and has a cursor that is not negative. -/
def Safe (st : DriverState) : Prop :=
  st.MyGlobalData.Contexts.length = MINOR_DEV_MAX_NUM ∧
  (∀ ctx ∈ st.MyGlobalData.Contexts,
    ctx.Message.length = MAX_MESSAGE_LEN ∧ 0 ≤ ctx.MessageLen ∧
      ctx.MessageLen ≤ (MAX_MESSAGE_LEN : Int)) ∧
  (∀ fh : MyFHPrivateData_t, some fh ∈ st.private_data →
    0 ≤ fh.minorDevice ∧ fh.minorDevice < (MINOR_DEV_MAX_NUM : Int) ∧ 0 ≤ fh.byteStartIndex)

/-- A run on minor device 4 with a write longer than the buffer and reads that ask for
far more bytes than the buffer holds. -/
def bigOps : List Op :=
  [Op.open 4, Op.write 0 (List.replicate 300 120), Op.read 0 18446744073709551615,
    Op.read 0 300, Op.write 0 [], Op.read 0 4096]

/-! ## Lemmas on the building blocks -/

theorem subscript_ok_iff {α : Type} (arr : List α) (i : Int) (x : α) :
    subscript arr i = .ok x ↔ 0 ≤ i ∧ arr[i.toNat]? = some x := by
  unfold subscript
  split
  · rename_i h
    cases hx : arr[i.toNat]? with
    | none => simp
    | some y => simp [h]
  · rename_i h
    simp [h]

theorem subscript_natCast {α : Type} (arr : List α) (k : Nat) (h : k < arr.length) :
    subscript arr (k : Int) = .ok arr[k] := by
  rw [subscript_ok_iff]
  simp [h]


theorem readLoop_spec (g : MyGlobalData_t) (minorDevice startByte messageLen : Int)
    (byteCount : Nat) (ctx : MyMinorDevContext_t)
    (hctx : subscript g.Contexts minorDevice = .ok ctx)
    (hs : 0 ≤ startByte) (hL : messageLen ≤ (ctx.Message.length : Int)) :
    ∀ (fuel bytesRead : Nat) (buf : List UInt8),
      bytesRead ≤ min byteCount (messageLen - startByte).toNat →
      min byteCount (messageLen - startByte).toNat ≤ fuel + bytesRead →
      readLoop g minorDevice startByte messageLen byteCount fuel bytesRead buf =
        .ok (min byteCount (messageLen - startByte).toNat,
          buf ++ (ctx.Message.drop (startByte.toNat + bytesRead)).take
            (min byteCount (messageLen - startByte).toNat - bytesRead)) := by
  intro fuel
  induction fuel with
  | zero =>
    intro bytesRead buf h1 h2
    have hd : bytesRead = min byteCount (messageLen - startByte).toNat := by omega
    unfold readLoop
    have hg : ¬ (bytesRead < byteCount ∧ startByte + (bytesRead : Int) < messageLen) := by
      omega
    simp [hg, ← hd]
  | succ fuel ih =>
    intro bytesRead buf h1 h2
    unfold readLoop
    by_cases hg : bytesRead < byteCount ∧ startByte + (bytesRead : Int) < messageLen
    · have hlt : startByte.toNat + bytesRead < ctx.Message.length := by omega
      have hload : loadMessageChar g minorDevice (startByte + (bytesRead : Int)) =
          .ok (ctx.Message[startByte.toNat + bytesRead]) := by
        unfold loadMessageChar
        rw [hctx]
        have : startByte + (bytesRead : Int) = ((startByte.toNat + bytesRead : Nat) : Int) := by
          omega
        simp only [this]
        exact subscript_natCast _ _ hlt
      simp only [hg, and_self, if_true, hload]
      rw [ih (bytesRead + 1) _ (by omega) (by omega)]
      have hk : min byteCount (messageLen - startByte).toNat - bytesRead =
          (min byteCount (messageLen - startByte).toNat - (bytesRead + 1)) + 1 := by omega
      rw [hk, List.drop_eq_getElem_cons hlt, List.take_succ_cons]
      simp [Nat.add_assoc]
    · have hd : bytesRead = min byteCount (messageLen - startByte).toNat := by omega
      simp [hg, ← hd]



theorem charDriverFileRead_spec (st : DriverState) (filp : Nat) (fh : MyFHPrivateData_t)
    (ctx : MyMinorDevContext_t) (n : Nat)
    (hfh : st.private_data[filp]? = some (some fh))
    (hctx : subscript st.MyGlobalData.Contexts fh.minorDevice = .ok ctx)
    (hc : 0 ≤ fh.byteStartIndex)
    (hL : ctx.MessageLen ≤ (ctx.Message.length : Int)) :
    charDriverFileRead st filp n =
      .ok (DriverState.mk st.MyGlobalData
            (st.private_data.set filp (some (MyFHPrivateData_t.mk fh.minorDevice
              (if fh.byteStartIndex +
                    ((min n (ctx.MessageLen - fh.byteStartIndex).toNat : Nat) : Int) =
                  ctx.MessageLen then 0
               else fh.byteStartIndex +
                    ((min n (ctx.MessageLen - fh.byteStartIndex).toNat : Nat) : Int))))),
          (ctx.Message.drop fh.byteStartIndex.toNat).take
            (min n (ctx.MessageLen - fh.byteStartIndex).toNat),
          ((min n (ctx.MessageLen - fh.byteStartIndex).toNat : Nat) : Int)) := by
  unfold charDriverFileRead
  simp only [hfh, hctx]
  rw [readLoop_spec st.MyGlobalData fh.minorDevice fh.byteStartIndex ctx.MessageLen n ctx hctx hc hL
    n 0 [] (by omega) (by omega)]
  simp



theorem private_data_lt (st : DriverState) (filp : Nat) (fh : MyFHPrivateData_t)
    (hfh : st.private_data[filp]? = some (some fh)) : filp < st.private_data.length := by
  by_contra h
  have : st.private_data[filp]? = none := List.getElem?_eq_none (by omega)
  rw [this] at hfh
  cases hfh

/-- C1: a read on a file with cursor `c ≥ 0`, bound to a device whose message
has length `L` inside its buffer, returns `min n (max (L - c) 0)` and hands the caller
exactly the bytes `Message[c], ..., Message[c + delivered - 1]`, in order, at
positions `0 .. delivered - 1`. -/
theorem charDriverFileRead_delivers (st : DriverState) (filp : Nat) (fh : MyFHPrivateData_t)
    (ctx : MyMinorDevContext_t) (n : Nat)
    (hfh : st.private_data[filp]? = some (some fh))
    (hctx : subscript st.MyGlobalData.Contexts fh.minorDevice = .ok ctx)
    (hc : 0 ≤ fh.byteStartIndex)
    (hL : ctx.MessageLen ≤ (ctx.Message.length : Int)) :
    ∃ st1 out ret, charDriverFileRead st filp n = .ok (st1, out, ret) ∧
      ret = min (n : Int) (max (ctx.MessageLen - fh.byteStartIndex) 0) ∧
      (out.length : Int) = ret ∧
      ∀ i : Nat, (i : Int) < ret →
        ∃ b, out[i]? = some b ∧ ctx.Message[fh.byteStartIndex.toNat + i]? = some b := by
  refine ⟨_, _, _, charDriverFileRead_spec st filp fh ctx n hfh hctx hc hL, ?_, ?_, ?_⟩
  · omega
  · rw [List.length_take, List.length_drop]
    omega
  · intro i hi
    have h1 : fh.byteStartIndex.toNat + i < ctx.Message.length := by omega
    refine ⟨ctx.Message[fh.byteStartIndex.toNat + i], ?_, ?_⟩
    · rw [List.getElem?_take_of_lt (by omega), List.getElem?_drop]
      exact List.getElem?_eq_getElem h1
    · exact List.getElem?_eq_getElem h1

theorem charDriverFileRead_delivers_witness :
    ∃ st1 out ret, charDriverFileRead helloState 0 7 = .ok (st1, out, ret) ∧
      ret = min ((7 : Nat) : Int) (max (helloContext.MessageLen - 0) 0) ∧
      (out.length : Int) = ret ∧
      ∀ i : Nat, (i : Int) < ret →
        ∃ b, out[i]? = some b ∧ helloContext.Message[(0 : Int).toNat + i]? = some b :=
  charDriverFileRead_delivers helloState 0 (MyFHPrivateData_t.mk 0 0) helloContext 7
    (by decide) (by decide!) (by decide) (by decide!)

theorem private_data_set_self (st : DriverState) (filp : Nat) (fh : MyFHPrivateData_t)
    (x : Option MyFHPrivateData_t)
    (hfh : st.private_data[filp]? = some (some fh)) :
    (st.private_data.set filp x)[filp]? = some x := by
  have hlt := private_data_lt st filp fh hfh
  simp [List.getElem?_set, hlt]

/-- C2: after a read that delivers `delivered` bytes the cursor of the file is 0
when `c + delivered = L` (also when `L = 0`) and `c + delivered` otherwise, the
file stays bound to its device, and a file whose cursor reached `L` is served
from offset 0 by its next read. -/
theorem charDriverFileRead_cursor (st : DriverState) (filp : Nat) (fh : MyFHPrivateData_t)
    (ctx : MyMinorDevContext_t) (n : Nat)
    (hfh : st.private_data[filp]? = some (some fh))
    (hctx : subscript st.MyGlobalData.Contexts fh.minorDevice = .ok ctx)
    (hc : 0 ≤ fh.byteStartIndex)
    (hL : ctx.MessageLen ≤ (ctx.Message.length : Int)) :
    ∃ st1 out delivered, charDriverFileRead st filp n = .ok (st1, out, delivered) ∧
      cursorOf st1 filp =
        some (if fh.byteStartIndex + delivered = ctx.MessageLen then 0
              else fh.byteStartIndex + delivered) ∧
      minorOf st1 filp = some fh.minorDevice ∧
      (fh.byteStartIndex + delivered = ctx.MessageLen →
        ∀ n2 : Nat, ∃ st2 out2 delivered2,
          charDriverFileRead st1 filp n2 = .ok (st2, out2, delivered2) ∧
          delivered2 = min (n2 : Int) ctx.MessageLen ∧
          out2 = ctx.Message.take (min n2 ctx.MessageLen.toNat)) := by
  refine ⟨_, _, _, charDriverFileRead_spec st filp fh ctx n hfh hctx hc hL, ?_, ?_, ?_⟩
  · simp [cursorOf, private_data_set_self st filp fh _ hfh]
  · simp [minorOf, private_data_set_self st filp fh _ hfh]
  · intro hreach n2
    have hL0 : 0 ≤ ctx.MessageLen := by omega
    rw [if_pos hreach]
    refine ⟨_, _, _, charDriverFileRead_spec _ filp (MyFHPrivateData_t.mk fh.minorDevice 0) ctx n2
      (private_data_set_self st filp fh _ hfh) hctx (le_refl _) hL, ?_, ?_⟩
    · simp only [sub_zero]
      omega
    · simp

theorem charDriverFileRead_cursor_witness :
    ∃ st1 out delivered, charDriverFileRead helloState 0 11 = .ok (st1, out, delivered) ∧
      cursorOf st1 0 =
        some (if (0 : Int) + delivered = helloContext.MessageLen then 0
              else (0 : Int) + delivered) ∧
      minorOf st1 0 = some 0 ∧
      ((0 : Int) + delivered = helloContext.MessageLen →
        ∀ n2 : Nat, ∃ st2 out2 delivered2,
          charDriverFileRead st1 0 n2 = .ok (st2, out2, delivered2) ∧
          delivered2 = min (n2 : Int) helloContext.MessageLen ∧
          out2 = helloContext.Message.take (min n2 helloContext.MessageLen.toNat)) :=
  charDriverFileRead_cursor helloState 0 (MyFHPrivateData_t.mk 0 0) helloContext 11
    (by decide) (by decide!) (by decide) (by decide!)

theorem subscript_lt {α : Type} (arr : List α) (i : Int) (x : α)
    (h : subscript arr i = .ok x) : 0 ≤ i ∧ i.toNat < arr.length := by
  rw [subscript_ok_iff] at h
  refine ⟨h.1, ?_⟩
  by_contra hlt
  have : arr[i.toNat]? = none := List.getElem?_eq_none (by omega)
  rw [this] at h
  cases h.2

theorem subscript_set {α : Type} (arr : List α) (i : Int) (x y : α)
    (h : subscript arr i = .ok x) : subscript (arr.set i.toNat y) i = .ok y := by
  have hlt := subscript_lt arr i x h
  rw [subscript_ok_iff]
  refine ⟨hlt.1, ?_⟩
  simp [List.getElem?_set, hlt.2]

theorem store_ok {α : Type} (arr : List α) (i : Int) (x y : α)
    (h : subscript arr i = .ok x) : store arr i y = .ok (arr.set i.toNat y) := by
  have hlt := subscript_lt arr i x h
  unfold store
  rw [if_pos hlt]

theorem storeMessageLen_ok (g : MyGlobalData_t) (minorDevice len : Int)
    (ctx : MyMinorDevContext_t) (hctx : subscript g.Contexts minorDevice = .ok ctx) :
    storeMessageLen g minorDevice len =
      .ok (MyGlobalData_t.mk
        (g.Contexts.set minorDevice.toNat (MyMinorDevContext_t.mk ctx.Message len))) := by
  unfold storeMessageLen
  simp only [hctx, store_ok g.Contexts minorDevice ctx _ hctx]

theorem storeMessageChar_ok (g : MyGlobalData_t) (minorDevice : Int) (k : Nat) (c : UInt8)
    (ctx : MyMinorDevContext_t) (hctx : subscript g.Contexts minorDevice = .ok ctx)
    (hk : k < ctx.Message.length) :
    storeMessageChar g minorDevice (k : Int) c =
      .ok (MyGlobalData_t.mk
        (g.Contexts.set minorDevice.toNat
          (MyMinorDevContext_t.mk (ctx.Message.set k c) ctx.MessageLen))) := by
  unfold storeMessageChar
  have hs : store ctx.Message (k : Int) c = .ok (ctx.Message.set k c) := by
    unfold store
    simp [hk]
  simp only [hctx, hs, store_ok g.Contexts minorDevice ctx _ hctx]

theorem set_eq_self {α : Type} (arr : List α) (i : Nat) (x : α) (h : arr[i]? = some x) :
    arr.set i x = arr := by
  apply List.ext_getElem?
  intro j
  by_cases hj : i = j
  · subst hj
    have hlt : i < arr.length := by
      by_contra hn
      have : arr[i]? = none := List.getElem?_eq_none (by omega)
      rw [this] at h
      cases h
    simp [List.getElem?_set, hlt, h]
  · simp [List.getElem?_set, hj]

theorem writeLoop_spec (minorDevice : Int) (buf : List UInt8) (byteCount : Nat) :
    ∀ (fuel : Nat) (g : MyGlobalData_t) (bytesWritten : Nat) (ctx : MyMinorDevContext_t),
      subscript g.Contexts minorDevice = .ok ctx →
      min byteCount MAX_MESSAGE_LEN ≤ ctx.Message.length →
      bytesWritten ≤ min byteCount MAX_MESSAGE_LEN →
      min byteCount MAX_MESSAGE_LEN ≤ fuel + bytesWritten →
      ∃ msg : List UInt8,
        writeLoop minorDevice buf byteCount fuel g bytesWritten =
          .ok (MyGlobalData_t.mk
                (g.Contexts.set minorDevice.toNat (MyMinorDevContext_t.mk msg ctx.MessageLen)),
              min byteCount MAX_MESSAGE_LEN) ∧
        msg.length = ctx.Message.length ∧
        ∀ k : Nat, msg[k]? =
          if bytesWritten ≤ k ∧ k < min byteCount MAX_MESSAGE_LEN then some (buf.getD k 0)
          else ctx.Message[k]? := by
  intro fuel
  induction fuel with
  | zero =>
    intro g bytesWritten ctx hctx hlen h1 h2
    have hd : bytesWritten = min byteCount MAX_MESSAGE_LEN := by omega
    have hg : ¬ (bytesWritten < byteCount ∧ bytesWritten < MAX_MESSAGE_LEN) := by omega
    refine ⟨ctx.Message, ?_, rfl, ?_⟩
    · unfold writeLoop
      rw [if_neg hg, ← hd]
      rw [set_eq_self g.Contexts minorDevice.toNat _ ((subscript_ok_iff _ _ _).1 hctx).2]
    · intro k
      have : ¬ (bytesWritten ≤ k ∧ k < min byteCount MAX_MESSAGE_LEN) := by omega
      rw [if_neg this]
  | succ fuel ih =>
    intro g bytesWritten ctx hctx hlen h1 h2
    by_cases hg : bytesWritten < byteCount ∧ bytesWritten < MAX_MESSAGE_LEN
    · have hk : bytesWritten < ctx.Message.length := by omega
      have hst := storeMessageChar_ok g minorDevice bytesWritten (buf.getD bytesWritten 0) ctx
        hctx hk
      have hctx1 := subscript_set g.Contexts minorDevice ctx
        (MyMinorDevContext_t.mk (ctx.Message.set bytesWritten (buf.getD bytesWritten 0))
          ctx.MessageLen) hctx
      obtain ⟨msg, hrun, hmlen, hmsg⟩ := ih (MyGlobalData_t.mk
        (g.Contexts.set minorDevice.toNat
          (MyMinorDevContext_t.mk (ctx.Message.set bytesWritten (buf.getD bytesWritten 0))
            ctx.MessageLen))) (bytesWritten + 1) _ hctx1 (by simpa using hlen) (by omega)
        (by omega)
      refine ⟨msg, ?_, by simpa using hmlen, ?_⟩
      · unfold writeLoop
        rw [if_pos hg]
        simp only [hst, hrun, List.set_set]
      · intro k
        rw [hmsg k]
        by_cases hkb : k = bytesWritten
        · subst hkb
          have h3 : ¬ (k + 1 ≤ k ∧ k < min byteCount MAX_MESSAGE_LEN) := by omega
          have h4 : k ≤ k ∧ k < min byteCount MAX_MESSAGE_LEN := by omega
          rw [if_neg h3, if_pos h4]
          simp [List.getElem?_set, hk]
        · by_cases h5 : bytesWritten + 1 ≤ k ∧ k < min byteCount MAX_MESSAGE_LEN
          · have h6 : bytesWritten ≤ k ∧ k < min byteCount MAX_MESSAGE_LEN := by omega
            rw [if_pos h5, if_pos h6]
          · have h6 : ¬ (bytesWritten ≤ k ∧ k < min byteCount MAX_MESSAGE_LEN) := by omega
            rw [if_neg h5, if_neg h6]
            have : bytesWritten ≠ k := fun h => hkb h.symm
            simp [List.getElem?_set, this]
    · have hd : bytesWritten = min byteCount MAX_MESSAGE_LEN := by omega
      refine ⟨ctx.Message, ?_, rfl, ?_⟩
      · unfold writeLoop
        rw [if_neg hg, ← hd]
        rw [set_eq_self g.Contexts minorDevice.toNat _ ((subscript_ok_iff _ _ _).1 hctx).2]
      · intro k
        have : ¬ (bytesWritten ≤ k ∧ k < min byteCount MAX_MESSAGE_LEN) := by omega
        rw [if_neg this]

theorem charDriverFileWrite_spec (st : DriverState) (filp : Nat) (fh : MyFHPrivateData_t)
    (ctx : MyMinorDevContext_t) (buf : List UInt8) (byteCount : Nat)
    (hfh : st.private_data[filp]? = some (some fh))
    (hctx : subscript st.MyGlobalData.Contexts fh.minorDevice = .ok ctx)
    (hlen : min byteCount MAX_MESSAGE_LEN ≤ ctx.Message.length) :
    ∃ msg : List UInt8,
      charDriverFileWrite st filp buf byteCount =
        .ok (DriverState.mk
              (MyGlobalData_t.mk (st.MyGlobalData.Contexts.set fh.minorDevice.toNat
                (MyMinorDevContext_t.mk msg ((min byteCount MAX_MESSAGE_LEN : Nat) : Int))))
              st.private_data,
            ((min byteCount MAX_MESSAGE_LEN : Nat) : Int)) ∧
      msg.length = ctx.Message.length ∧
      ∀ k : Nat, msg[k]? =
        if k < min byteCount MAX_MESSAGE_LEN then some (buf.getD k 0) else ctx.Message[k]? := by
  obtain ⟨msg, hrun, hmlen, hmsg⟩ := writeLoop_spec fh.minorDevice buf byteCount byteCount
    st.MyGlobalData 0 ctx hctx hlen (by omega) (by omega)
  refine ⟨msg, ?_, hmlen, ?_⟩
  · unfold charDriverFileWrite
    simp only [hfh, hrun]
    have hctx1 := subscript_set st.MyGlobalData.Contexts fh.minorDevice ctx
      (MyMinorDevContext_t.mk msg ctx.MessageLen) hctx
    rw [storeMessageLen_ok _ fh.minorDevice _ _ hctx1]
    simp only [List.set_set]
  · intro k
    rw [hmsg k]
    simp

theorem charDriverFileWrite_spec_length (st : DriverState) (filp : Nat) (fh : MyFHPrivateData_t)
    (ctx : MyMinorDevContext_t) (buf : List UInt8)
    (hfh : st.private_data[filp]? = some (some fh))
    (hctx : subscript st.MyGlobalData.Contexts fh.minorDevice = .ok ctx)
    (hlen : min buf.length MAX_MESSAGE_LEN ≤ ctx.Message.length) :
    charDriverFileWrite st filp buf buf.length =
      .ok (DriverState.mk
            (MyGlobalData_t.mk (st.MyGlobalData.Contexts.set fh.minorDevice.toNat
              (MyMinorDevContext_t.mk
                (buf.take (min buf.length MAX_MESSAGE_LEN) ++
                  ctx.Message.drop (min buf.length MAX_MESSAGE_LEN))
                ((min buf.length MAX_MESSAGE_LEN : Nat) : Int))))
            st.private_data,
          ((min buf.length MAX_MESSAGE_LEN : Nat) : Int)) := by
  obtain ⟨msg, hrun, hmlen, hmsg⟩ := charDriverFileWrite_spec st filp fh ctx buf buf.length
    hfh hctx hlen
  have hm : msg = buf.take (min buf.length MAX_MESSAGE_LEN) ++
      ctx.Message.drop (min buf.length MAX_MESSAGE_LEN) := by
    apply List.ext_getElem?
    intro k
    rw [hmsg k]
    by_cases hk : k < min buf.length MAX_MESSAGE_LEN
    · have hkl : k < buf.length := by omega
      rw [if_pos hk, List.getElem?_append_left (by simp; omega),
        List.getElem?_take_of_lt hk, List.getElem?_eq_getElem hkl]
      simp [List.getD_eq_getElem?_getD, hkl]
    · rw [if_neg hk, List.getElem?_append_right (by simp; omega), List.getElem?_drop]
      congr 1
      simp
      omega
  rw [hrun, hm]

theorem charDriverInit_ok :
    charDriverInit 0 (fun _ => 0) MyGlobalData_static = .ok (0, MyGlobalData_static) := by
  decide!

theorem initialState_eq : initialState = DriverState.mk MyGlobalData_static [] := by
  unfold initialState
  rw [charDriverInit_ok]

theorem charDriverFileWrite_accepts (st : DriverState) (filp : Nat) (fh : MyFHPrivateData_t)
    (ctx : MyMinorDevContext_t) (buf : List UInt8)
    (hfh : st.private_data[filp]? = some (some fh))
    (hctx : subscript st.MyGlobalData.Contexts fh.minorDevice = .ok ctx)
    (hsize : MAX_MESSAGE_LEN ≤ ctx.Message.length) :
    ∃ st1 ctx1, charDriverFileWrite st filp buf buf.length =
        .ok (st1, ((min buf.length MAX_MESSAGE_LEN : Nat) : Int)) ∧
      subscript st1.MyGlobalData.Contexts fh.minorDevice = .ok ctx1 ∧
      ctx1.MessageLen = ((min buf.length MAX_MESSAGE_LEN : Nat) : Int) ∧
      ctx1.Message.take (min buf.length MAX_MESSAGE_LEN) = buf.take MAX_MESSAGE_LEN := by
  refine ⟨_, _, charDriverFileWrite_spec_length st filp fh ctx buf hfh hctx (by omega),
    subscript_set _ _ ctx _ hctx, rfl, ?_⟩
  simp only
  rw [List.take_append_of_le_length (by simp only [List.length_take]; omega), List.take_take]
  by_cases h : buf.length ≤ MAX_MESSAGE_LEN
  · rw [min_self, min_eq_left h, List.take_of_length_le (le_refl _), List.take_of_length_le h]
  · rw [min_self, min_eq_right (by omega)]

/-- C4: after a write of at most 255 bytes through a file bound to minor device `i`,
a file newly opened on `i` that reads with a count of at least the input length
receives exactly the input, with that length as return value, and its cursor is 0
afterwards. -/
theorem write_read_round_trip (st : DriverState) (wfilp : Nat) (wfh : MyFHPrivateData_t)
    (ctx : MyMinorDevContext_t) (i : Nat) (buf : List UInt8) (n : Nat)
    (hfh : st.private_data[wfilp]? = some (some wfh))
    (hbind : wfh.minorDevice = (i : Int))
    (hctx : st.MyGlobalData.Contexts[i]? = some ctx)
    (hsize : ctx.Message.length = MAX_MESSAGE_LEN)
    (hm : buf.length ≤ 255)
    (hn : buf.length ≤ n) :
    ∃ st1, charDriverFileWrite st wfilp buf buf.length = .ok (st1, (buf.length : Int)) ∧
      ∃ st3, charDriverFileRead (charDriverFileOpen st1 i).1 (charDriverFileOpen st1 i).2.1 n =
          .ok (st3, buf, (buf.length : Int)) ∧
        cursorOf st3 (charDriverFileOpen st1 i).2.1 = some 0 := by
  have hsub : subscript st.MyGlobalData.Contexts wfh.minorDevice = .ok ctx := by
    rw [subscript_ok_iff, hbind]
    exact ⟨by omega, by simpa using hctx⟩
  have hd : min buf.length MAX_MESSAGE_LEN = buf.length := by
    simp only [MAX_MESSAGE_LEN]
    omega
  have hw := charDriverFileWrite_spec_length st wfilp wfh ctx buf hfh hsub (by omega)
  rw [hd] at hw
  refine ⟨_, hw, ?_⟩
  have hsub1 := subscript_set st.MyGlobalData.Contexts wfh.minorDevice ctx
    (MyMinorDevContext_t.mk (buf.take buf.length ++ ctx.Message.drop buf.length)
      (buf.length : Int)) hsub
  have hfh2 : (st.private_data ++ [some (MyFHPrivateData_t.mk (i : Int) 0)])[
      st.private_data.length]? = some (some (MyFHPrivateData_t.mk (i : Int) 0)) := by
    simp
  have hr := charDriverFileRead_spec
    (DriverState.mk (MyGlobalData_t.mk (st.MyGlobalData.Contexts.set wfh.minorDevice.toNat
        (MyMinorDevContext_t.mk (buf.take buf.length ++ ctx.Message.drop buf.length)
          (buf.length : Int))))
      (st.private_data ++ [some (MyFHPrivateData_t.mk (i : Int) 0)]))
    st.private_data.length (MyFHPrivateData_t.mk (i : Int) 0) _ n hfh2
    (by rw [← hbind]; exact hsub1) (le_refl _) (by simp)
  have hmin : min n ((buf.length : Int) - 0).toNat = buf.length := by omega
  simp only [hmin] at hr
  have hout : List.take buf.length (List.drop (Int.toNat 0)
      (buf.take buf.length ++ ctx.Message.drop buf.length)) = buf := by
    simp
  rw [hout] at hr
  exact ⟨_, hr, by simp [cursorOf, charDriverFileOpen]⟩

theorem write_read_round_trip_witness :
    ∃ st1, charDriverFileWrite helloState 0 [67, 68] ([67, 68] : List UInt8).length =
        .ok (st1, ((([67, 68] : List UInt8).length : Nat) : Int)) ∧
      ∃ st3, charDriverFileRead (charDriverFileOpen st1 0).1 (charDriverFileOpen st1 0).2.1 5 =
          .ok (st3, [67, 68], ((([67, 68] : List UInt8).length : Nat) : Int)) ∧
        cursorOf st3 (charDriverFileOpen st1 0).2.1 = some 0 :=
  write_read_round_trip helloState 0 (MyFHPrivateData_t.mk 0 0) helloContext 0 [67, 68] 5
    (by decide) (by decide) (by decide!) (by decide!) (by decide) (by decide)

theorem readOps_succ (filp : Nat) (ns : Nat → Nat) (k : Nat) :
    readOps filp ns (k + 1) = Op.read filp (ns 0) :: readOps filp (fun j => ns (j + 1)) k := by
  simp [readOps, List.range_succ_eq_map, List.map_map, Function.comp_def]

theorem run_cons_read (st st1 : DriverState) (filp n : Nat) (out : List UInt8) (ret : Int)
    (ops : List Op) (h : charDriverFileRead st filp n = .ok (st1, out, ret)) :
    run st (Op.read filp n :: ops) =
      match run st1 ops with
      | .error e => .error e
      | .ok (st2, rs) => .ok (st2, Result.readDone out ret :: rs) := by
  simp [run, step, h]

theorem withCursor_private_data (st : DriverState) (filp : Nat) (fh : MyFHPrivateData_t)
    (md c : Int) (hfh : st.private_data[filp]? = some (some fh)) :
    (withCursor st filp md c).private_data[filp]? = some (some (MyFHPrivateData_t.mk md c)) := by
  simp [withCursor, private_data_set_self st filp fh _ hfh]

theorem withCursor_withCursor (st : DriverState) (filp : Nat) (md c md2 c2 : Int) :
    withCursor (withCursor st filp md c) filp md2 c2 = withCursor st filp md2 c2 := by
  simp [withCursor, List.set_set]

theorem charDriverFileRead_withCursor (st : DriverState) (filp : Nat) (fh : MyFHPrivateData_t)
    (ctx : MyMinorDevContext_t) (n : Nat)
    (hfh : st.private_data[filp]? = some (some fh))
    (hctx : subscript st.MyGlobalData.Contexts fh.minorDevice = .ok ctx)
    (hc : 0 ≤ fh.byteStartIndex)
    (hL : ctx.MessageLen ≤ (ctx.Message.length : Int)) :
    charDriverFileRead st filp n =
      .ok (withCursor st filp fh.minorDevice
            (if fh.byteStartIndex +
                  ((min n (ctx.MessageLen - fh.byteStartIndex).toNat : Nat) : Int) =
                ctx.MessageLen then 0
             else fh.byteStartIndex +
                  ((min n (ctx.MessageLen - fh.byteStartIndex).toNat : Nat) : Int)),
          (ctx.Message.drop fh.byteStartIndex.toNat).take
            (min n (ctx.MessageLen - fh.byteStartIndex).toNat),
          ((min n (ctx.MessageLen - fh.byteStartIndex).toNat : Nat) : Int)) :=
  charDriverFileRead_spec st filp fh ctx n hfh hctx hc hL

theorem reads_tile_from (filp : Nat) (ctx : MyMinorDevContext_t) (md : Int)
    (hL : ctx.MessageLen ≤ (ctx.Message.length : Int)) :
    ∀ (m : Nat) (st : DriverState) (c : Int) (ns : Nat → Nat),
      st.private_data[filp]? = some (some (MyFHPrivateData_t.mk md c)) →
      subscript st.MyGlobalData.Contexts md = .ok ctx →
      0 ≤ c → c < ctx.MessageLen → (ctx.MessageLen - c).toNat ≤ m →
      (∀ i, 1 ≤ ns i) →
      ∃ k : Nat, 1 ≤ k ∧ k ≤ (ctx.MessageLen - c).toNat ∧
        ∃ rs, run st (readOps filp ns k) = .ok (withCursor st filp md 0, rs) ∧
          (rs.map Result.bytes).flatten =
            (ctx.Message.drop c.toNat).take (ctx.MessageLen - c).toNat ∧
          ∀ j : Nat, 1 ≤ j → j < k →
            ∃ stj rsj, run st (readOps filp ns j) = .ok (stj, rsj) ∧
              ∃ cj : Int, cursorOf stj filp = some cj ∧ cj ≠ 0 := by
  intro m
  induction m with
  | zero =>
    intro st c ns _ _ _ hcL hm _
    omega
  | succ m ih =>
    intro st c ns hfh hctx hc hcL hm hns
    have hn0 := hns 0
    have hread := charDriverFileRead_withCursor st filp _ ctx (ns 0) hfh hctx hc hL
    simp only at hread
    by_cases hend : c + ((min (ns 0) (ctx.MessageLen - c).toNat : Nat) : Int) = ctx.MessageLen
    · rw [if_pos hend] at hread
      refine ⟨1, le_refl _, by omega, ?_⟩
      have hd : min (ns 0) (ctx.MessageLen - c).toNat = (ctx.MessageLen - c).toNat := by omega
      rw [hd] at hread
      refine ⟨[Result.readDone
        ((ctx.Message.drop c.toNat).take (ctx.MessageLen - c).toNat)
        (((ctx.MessageLen - c).toNat : Nat) : Int)], ?_, ?_, ?_⟩
      · rw [readOps_succ, run_cons_read _ _ _ _ _ _ _ hread]
        simp [readOps, run]
      · simp [Result.bytes]
      · intro j h1 h2
        omega
    · rw [if_neg hend] at hread
      have hfh1 := withCursor_private_data st filp _ md
        (c + ((min (ns 0) (ctx.MessageLen - c).toNat : Nat) : Int)) hfh
      obtain ⟨k, hk1, hk2, rs, hrun, hjoin, hmid⟩ := ih
        (withCursor st filp md (c + ((min (ns 0) (ctx.MessageLen - c).toNat : Nat) : Int)))
        (c + ((min (ns 0) (ctx.MessageLen - c).toNat : Nat) : Int)) (fun j => ns (j + 1))
        hfh1 hctx (by omega) (by omega) (by omega) (fun i => hns (i + 1))
      rw [withCursor_withCursor] at hrun
      refine ⟨k + 1, by omega, by omega, ?_⟩
      refine ⟨Result.readDone
        ((ctx.Message.drop c.toNat).take (min (ns 0) (ctx.MessageLen - c).toNat))
        ((min (ns 0) (ctx.MessageLen - c).toNat : Nat) : Int) :: rs, ?_, ?_, ?_⟩
      · rw [readOps_succ, run_cons_read _ _ _ _ _ _ _ hread, hrun]
      · simp only [List.map_cons, List.flatten_cons, Result.bytes, hjoin]
        have h1 : (c + ((min (ns 0) (ctx.MessageLen - c).toNat : Nat) : Int)).toNat =
            c.toNat + min (ns 0) (ctx.MessageLen - c).toNat := by omega
        have h2 : (ctx.MessageLen -
            (c + ((min (ns 0) (ctx.MessageLen - c).toNat : Nat) : Int))).toNat =
            (ctx.MessageLen - c).toNat - min (ns 0) (ctx.MessageLen - c).toNat := by omega
        have h3 : (ctx.MessageLen - c).toNat = min (ns 0) (ctx.MessageLen - c).toNat +
            ((ctx.MessageLen - c).toNat - min (ns 0) (ctx.MessageLen - c).toNat) := by omega
        rw [h1, h2]
        conv_rhs => rw [h3, List.take_add, List.drop_drop]
      · intro j hj1 hj2
        by_cases hj : j = 1
        · subst hj
          refine ⟨withCursor st filp md (c + ((min (ns 0) (ctx.MessageLen - c).toNat : Nat) : Int)),
            [Result.readDone
              ((ctx.Message.drop c.toNat).take (min (ns 0) (ctx.MessageLen - c).toNat))
              ((min (ns 0) (ctx.MessageLen - c).toNat : Nat) : Int)], ?_,
            c + ((min (ns 0) (ctx.MessageLen - c).toNat : Nat) : Int), ?_, ?_⟩
          · rw [readOps_succ, run_cons_read _ _ _ _ _ _ _ hread]
            simp [readOps, run]
          · unfold cursorOf
            rw [hfh1]
          · omega
        · obtain ⟨stj, rsj, hrunj, cj, hcj, hne⟩ := hmid (j - 1) (by omega) (by omega)
          refine ⟨stj, Result.readDone
              ((ctx.Message.drop c.toNat).take (min (ns 0) (ctx.MessageLen - c).toNat))
              ((min (ns 0) (ctx.MessageLen - c).toNat : Nat) : Int) :: rsj, ?_, cj, hcj, hne⟩
          have : j = (j - 1) + 1 := by omega
          rw [this, readOps_succ, run_cons_read _ _ _ _ _ _ _ hread, hrunj]

/-- C5: successive reads with counts `ns 0, ns 1, ...`, each at least 1, of a file at
cursor 0 on a message of length `L > 0` tile the message: for some `1 ≤ k ≤ L` the
bytes delivered by the first `k` reads concatenate to the whole message, the cursor
is 0 after read `k` and non-zero after every earlier read, and the next read delivers
the message again from offset 0. -/
theorem reads_tile_message (st : DriverState) (filp : Nat) (fh : MyFHPrivateData_t)
    (ctx : MyMinorDevContext_t) (ns : Nat → Nat)
    (hfh : st.private_data[filp]? = some (some fh))
    (hctx : subscript st.MyGlobalData.Contexts fh.minorDevice = .ok ctx)
    (hc : fh.byteStartIndex = 0)
    (hL0 : 0 < ctx.MessageLen)
    (hL : ctx.MessageLen ≤ (ctx.Message.length : Int))
    (hns : ∀ i, 1 ≤ ns i) :
    ∃ k : Nat, 1 ≤ k ∧ (k : Int) ≤ ctx.MessageLen ∧
      ∃ stk rs, run st (readOps filp ns k) = .ok (stk, rs) ∧
        (rs.map Result.bytes).flatten = ctx.Message.take ctx.MessageLen.toNat ∧
        cursorOf stk filp = some 0 ∧
        (∀ j : Nat, 1 ≤ j → j < k →
          ∃ stj rsj, run st (readOps filp ns j) = .ok (stj, rsj) ∧
            ∃ cj : Int, cursorOf stj filp = some cj ∧ cj ≠ 0) ∧
        ∃ st2, charDriverFileRead stk filp (ns k) =
          .ok (st2, ctx.Message.take (min (ns k) ctx.MessageLen.toNat),
            ((min (ns k) ctx.MessageLen.toNat : Nat) : Int)) ∧
          1 ≤ min (ns k) ctx.MessageLen.toNat := by
  obtain ⟨md, c⟩ := fh
  simp only at hc hctx
  subst hc
  obtain ⟨k, hk1, hk2, rs, hrun, hjoin, hmid⟩ := reads_tile_from filp ctx md hL
    (ctx.MessageLen - 0).toNat st 0 ns hfh hctx (le_refl _) hL0 (le_refl _) hns
  have hfhk := withCursor_private_data st filp _ md 0 hfh
  refine ⟨k, hk1, by omega, withCursor st filp md 0, rs, hrun, ?_, ?_, hmid, ?_⟩
  · simpa using hjoin
  · unfold cursorOf
    rw [hfhk]
  · have hread := charDriverFileRead_withCursor (withCursor st filp md 0) filp _ ctx (ns k)
      hfhk hctx (le_refl _) hL
    simp only [sub_zero, Int.toNat_zero, List.drop_zero] at hread
    have := hns k
    exact ⟨_, hread, by omega⟩

theorem reads_tile_message_witness :
    (∃ k : Nat, 1 ≤ k ∧ (k : Int) ≤ helloContext.MessageLen ∧
      ∃ stk rs, run helloState (readOps 0 helloCounts k) = .ok (stk, rs) ∧
        (rs.map Result.bytes).flatten = helloContext.Message.take helloContext.MessageLen.toNat ∧
        cursorOf stk 0 = some 0 ∧
        (∀ j : Nat, 1 ≤ j → j < k →
          ∃ stj rsj, run helloState (readOps 0 helloCounts j) = .ok (stj, rsj) ∧
            ∃ cj : Int, cursorOf stj 0 = some cj ∧ cj ≠ 0) ∧
        ∃ st2, charDriverFileRead stk 0 (helloCounts k) =
          .ok (st2, helloContext.Message.take (min (helloCounts k) helloContext.MessageLen.toNat),
            ((min (helloCounts k) helloContext.MessageLen.toNat : Nat) : Int)) ∧
          1 ≤ min (helloCounts k) helloContext.MessageLen.toNat) ∧
    (run helloState (readOps 0 helloCounts 4)).map (fun r => r.2) =
      .ok [Result.readDone [72, 101, 108, 108, 111, 32, 87] 7, Result.readDone [111] 1,
        Result.readDone [114, 108, 100] 3, Result.readDone [72] 1] :=
  ⟨reads_tile_message helloState 0 (MyFHPrivateData_t.mk 0 0) helloContext helloCounts
    (by decide) (by decide!) (by decide) (by decide) (by decide!)
    (by intro i; unfold helloCounts; split <;> omega),
   by decide!⟩

theorem withCursor_private_data_ne (st : DriverState) (a b : Nat) (md c : Int) (hab : a ≠ b) :
    (withCursor st a md c).private_data[b]? = st.private_data[b]? := by
  simp [withCursor, List.getElem?_set, hab]

theorem interleaved_reads_solo (a b : Nat) (hab : a ≠ b) (ctx : MyMinorDevContext_t) (md : Int)
    (hL : ctx.MessageLen ≤ (ctx.Message.length : Int)) :
    ∀ (ops : List Op) (st : DriverState) (ca cb : Int),
      st.private_data[a]? = some (some (MyFHPrivateData_t.mk md ca)) →
      st.private_data[b]? = some (some (MyFHPrivateData_t.mk md cb)) →
      subscript st.MyGlobalData.Contexts md = .ok ctx →
      0 ≤ ca → 0 ≤ cb →
      (∀ op ∈ ops, ∃ n, op = Op.read a n ∨ op = Op.read b n) →
      ∃ st1 rs, run st ops = .ok (st1, rs) ∧
        readsOf a ops rs = soloReads ctx ca (countsOf a ops) ∧
        readsOf b ops rs = soloReads ctx cb (countsOf b ops) := by
  intro ops
  induction ops with
  | nil =>
    intro st ca cb _ _ _ _ _ _
    exact ⟨st, [], rfl, rfl, rfl⟩
  | cons op ops ih =>
    intro st ca cb hfa hfb hctx hca hcb hops
    have hrest : ∀ op2 ∈ ops, ∃ n, op2 = Op.read a n ∨ op2 = Op.read b n :=
      fun op2 h2 => hops op2 (List.mem_cons_of_mem _ h2)
    obtain ⟨n, hop | hop⟩ := hops op (List.mem_cons_self _ _)
    · subst hop
      have hread := charDriverFileRead_withCursor st a _ ctx n hfa hctx hca hL
      simp only at hread
      have hnn : 0 ≤ (if ca + ((min n (ctx.MessageLen - ca).toNat : Nat) : Int) = ctx.MessageLen
          then 0 else ca + ((min n (ctx.MessageLen - ca).toNat : Nat) : Int)) := by
        split <;> omega
      generalize hc1 : (if ca + ((min n (ctx.MessageLen - ca).toNat : Nat) : Int) =
          ctx.MessageLen then 0 else ca + ((min n (ctx.MessageLen - ca).toNat : Nat) : Int)) = ca1
        at hread hnn
      obtain ⟨st1, rs, hrun, hra, hrb⟩ := ih (withCursor st a md ca1) ca1 cb
        (withCursor_private_data st a _ md _ hfa)
        (by rw [withCursor_private_data_ne st a b md _ hab]; exact hfb)
        hctx hnn hcb hrest
      refine ⟨st1, Result.readDone
        ((ctx.Message.drop ca.toNat).take (min n (ctx.MessageLen - ca).toNat))
        ((min n (ctx.MessageLen - ca).toNat : Nat) : Int) :: rs, ?_, ?_, ?_⟩
      · rw [run_cons_read _ _ _ _ _ _ _ hread, hrun]
      · simp only [readsOf, countsOf, soloReads, if_true, hra, hc1]
      · simp only [readsOf, countsOf, hab, if_false, hrb]
    · subst hop
      have hread := charDriverFileRead_withCursor st b _ ctx n hfb hctx hcb hL
      simp only at hread
      have hnn : 0 ≤ (if cb + ((min n (ctx.MessageLen - cb).toNat : Nat) : Int) = ctx.MessageLen
          then 0 else cb + ((min n (ctx.MessageLen - cb).toNat : Nat) : Int)) := by
        split <;> omega
      generalize hc1 : (if cb + ((min n (ctx.MessageLen - cb).toNat : Nat) : Int) =
          ctx.MessageLen then 0 else cb + ((min n (ctx.MessageLen - cb).toNat : Nat) : Int)) = cb1
        at hread hnn
      obtain ⟨st1, rs, hrun, hra, hrb⟩ := ih (withCursor st b md cb1) ca cb1
        (by rw [withCursor_private_data_ne st b a md _ (Ne.symm hab)]; exact hfa)
        (withCursor_private_data st b _ md _ hfb)
        hctx hca hnn hrest
      refine ⟨st1, Result.readDone
        ((ctx.Message.drop cb.toNat).take (min n (ctx.MessageLen - cb).toNat))
        ((min n (ctx.MessageLen - cb).toNat : Nat) : Int) :: rs, ?_, ?_, ?_⟩
      · rw [run_cons_read _ _ _ _ _ _ _ hread, hrun]
      · simp only [readsOf, countsOf, Ne.symm hab, if_false, hra]
      · simp only [readsOf, countsOf, soloReads, if_true, hrb, hc1]

theorem soloReads_length (ctx : MyMinorDevContext_t) :
    ∀ (ns : List Nat) (c : Int), (soloReads ctx c ns).length = ns.length := by
  intro ns
  induction ns with
  | nil => intro c; rfl
  | cons n ns ih => intro c; simp [soloReads, ih]

theorem isReadOn_eq (filp : Nat) (op : Op) (h : Op.isReadOn filp op = true) :
    ∃ n, op = Op.read filp n := by
  cases op with
  | read f n =>
    simp [Op.isReadOn] at h
    exact ⟨n, by rw [h]⟩
  | «open» m => simp [Op.isReadOn] at h
  | write f buf => simp [Op.isReadOn] at h
  | close f => simp [Op.isReadOn] at h

/-- C6: two distinct files bound to the same device and standing at the same cursor
(as after `open`) that issue the same sequence of read counts, in any interleaving
of their calls and with no other call in between, get the same bytes and the same
return value at their i-th reads; and a read on one file leaves the record (cursor
and binding) of the other file as it was. -/
theorem independent_cursors (st : DriverState) (a b : Nat) (fha fhb : MyFHPrivateData_t)
    (ctx : MyMinorDevContext_t) (ops : List Op)
    (hab : a ≠ b)
    (hfa : st.private_data[a]? = some (some fha))
    (hfb : st.private_data[b]? = some (some fhb))
    (hmd : fhb.minorDevice = fha.minorDevice)
    (hcur : fhb.byteStartIndex = fha.byteStartIndex)
    (hc : 0 ≤ fha.byteStartIndex)
    (hctx : subscript st.MyGlobalData.Contexts fha.minorDevice = .ok ctx)
    (hL : ctx.MessageLen ≤ (ctx.Message.length : Int))
    (hops : ∀ op ∈ ops, Op.isReadOn a op = true ∨ Op.isReadOn b op = true)
    (hsame : countsOf a ops = countsOf b ops) :
    (∃ st1 rs, run st ops = .ok (st1, rs) ∧
      readsOf a ops rs = readsOf b ops rs ∧
      (readsOf a ops rs).length = (countsOf a ops).length) ∧
    (∀ n : Nat, ∃ st2 out ret, charDriverFileRead st a n = .ok (st2, out, ret) ∧
      st2.private_data[b]? = some (some fhb)) ∧
    (∀ n : Nat, ∃ st2 out ret, charDriverFileRead st b n = .ok (st2, out, ret) ∧
      st2.private_data[a]? = some (some fha)) := by
  obtain ⟨md, ca⟩ := fha
  obtain ⟨mdb, cb⟩ := fhb
  simp only at hmd hcur hc hctx
  subst hmd
  subst hcur
  have hops1 : ∀ op ∈ ops, ∃ n, op = Op.read a n ∨ op = Op.read b n := by
    intro op hop
    rcases hops op hop with h | h
    · obtain ⟨n, hn⟩ := isReadOn_eq a op h
      exact ⟨n, Or.inl hn⟩
    · obtain ⟨n, hn⟩ := isReadOn_eq b op h
      exact ⟨n, Or.inr hn⟩
  obtain ⟨st1, rs, hrun, hra, hrb⟩ := interleaved_reads_solo a b hab ctx mdb hL ops st cb cb
    hfa hfb hctx hc hc hops1
  refine ⟨⟨st1, rs, hrun, ?_, ?_⟩, ?_, ?_⟩
  · rw [hra, hrb, hsame]
  · rw [hra, soloReads_length]
  · intro n
    refine ⟨_, _, _, charDriverFileRead_withCursor st a _ ctx n hfa hctx hc hL, ?_⟩
    rw [withCursor_private_data_ne st a b _ _ hab]
    exact hfb
  · intro n
    refine ⟨_, _, _, charDriverFileRead_withCursor st b _ ctx n hfb hctx hc hL, ?_⟩
    rw [withCursor_private_data_ne st b a _ _ (Ne.symm hab)]
    exact hfa

theorem independent_cursors_witness :
    (∃ st1 rs, run helloState [Op.read 0 7, Op.read 1 7, Op.read 1 1, Op.read 0 1, Op.read 0 7,
        Op.read 1 7] = .ok (st1, rs) ∧
      readsOf 0 [Op.read 0 7, Op.read 1 7, Op.read 1 1, Op.read 0 1, Op.read 0 7, Op.read 1 7] rs =
        readsOf 1 [Op.read 0 7, Op.read 1 7, Op.read 1 1, Op.read 0 1, Op.read 0 7, Op.read 1 7]
          rs ∧
      (readsOf 0 [Op.read 0 7, Op.read 1 7, Op.read 1 1, Op.read 0 1, Op.read 0 7, Op.read 1 7]
        rs).length =
        (countsOf 0 [Op.read 0 7, Op.read 1 7, Op.read 1 1, Op.read 0 1, Op.read 0 7,
          Op.read 1 7]).length) ∧
    (∀ n : Nat, ∃ st2 out ret, charDriverFileRead helloState 0 n = .ok (st2, out, ret) ∧
      st2.private_data[1]? = some (some (MyFHPrivateData_t.mk 0 0))) ∧
    (∀ n : Nat, ∃ st2 out ret, charDriverFileRead helloState 1 n = .ok (st2, out, ret) ∧
      st2.private_data[0]? = some (some (MyFHPrivateData_t.mk 0 0))) :=
  independent_cursors helloState 0 1 (MyFHPrivateData_t.mk 0 0) (MyFHPrivateData_t.mk 0 0)
    helloContext [Op.read 0 7, Op.read 1 7, Op.read 1 1, Op.read 0 1, Op.read 0 7, Op.read 1 7]
    (by decide) (by decide) (by decide) rfl rfl (by decide) (by decide!) (by decide!)
    (by decide) (by decide)

theorem charDriverFileWrite_private_data (st st1 : DriverState) (filp : Nat) (buf : List UInt8)
    (byteCount : Nat) (ret : Int)
    (h : charDriverFileWrite st filp buf byteCount = .ok (st1, ret)) :
    st1.private_data = st.private_data := by
  unfold charDriverFileWrite at h
  split at h
  · split at h
    · cases h
    · split at h
      · cases h
      · simp only [Except.ok.injEq, Prod.mk.injEq] at h
        rw [← h.1]
  · cases h

/-- C7: a write, through any open file and with any input, succeeds on a device whose
buffer holds `MAX_MESSAGE_LEN` bytes and leaves the table of file records as it was:
the cursor and the device binding of every file, the writing one included, are the
same after the write as before. -/
theorem charDriverFileWrite_keeps_handles (st : DriverState) (filp : Nat)
    (fh : MyFHPrivateData_t) (ctx : MyMinorDevContext_t) (buf : List UInt8) (byteCount : Nat)
    (hfh : st.private_data[filp]? = some (some fh))
    (hctx : subscript st.MyGlobalData.Contexts fh.minorDevice = .ok ctx)
    (hsize : MAX_MESSAGE_LEN ≤ ctx.Message.length) :
    ∃ st1 ret, charDriverFileWrite st filp buf byteCount = .ok (st1, ret) ∧
      st1.private_data = st.private_data ∧
      ∀ f : Nat, cursorOf st1 f = cursorOf st f ∧ minorOf st1 f = minorOf st f := by
  obtain ⟨msg, hw, _, _⟩ := charDriverFileWrite_spec st filp fh ctx buf byteCount hfh hctx
    (by omega)
  refine ⟨_, _, hw, rfl, ?_⟩
  intro f
  exact ⟨rfl, rfl⟩

theorem charDriverFileWrite_keeps_handles_witness :
    ∃ st1 ret, charDriverFileWrite helloState 0 [67] 1 = .ok (st1, ret) ∧
      st1.private_data = helloState.private_data ∧
      ∀ f : Nat, cursorOf st1 f = cursorOf helloState f ∧ minorOf st1 f = minorOf helloState f :=
  charDriverFileWrite_keeps_handles helloState 0 (MyFHPrivateData_t.mk 0 0) helloContext [67] 1
    (by decide) (by decide!) (by decide!)

theorem run_cons_write (st st1 : DriverState) (filp : Nat) (buf : List UInt8) (ret : Int)
    (ops : List Op) (h : charDriverFileWrite st filp buf buf.length = .ok (st1, ret)) :
    run st (Op.write filp buf :: ops) =
      match run st1 ops with
      | .error e => .error e
      | .ok (st2, rs) => .ok (st2, Result.written ret :: rs) := by
  simp [run, step, h]

theorem charDriverFileRead_starved (st : DriverState) (filp : Nat) (fh : MyFHPrivateData_t)
    (ctx : MyMinorDevContext_t) (n : Nat)
    (hfh : st.private_data[filp]? = some (some fh))
    (hctx : subscript st.MyGlobalData.Contexts fh.minorDevice = .ok ctx)
    (hgt : ctx.MessageLen < fh.byteStartIndex) :
    charDriverFileRead st filp n = .ok (st, [], 0) := by
  unfold charDriverFileRead
  simp only [hfh, hctx]
  have hloop : readLoop st.MyGlobalData fh.minorDevice fh.byteStartIndex ctx.MessageLen n n 0 [] =
      .ok (0, []) := by
    unfold readLoop
    have hg : ¬ (0 < n ∧ fh.byteStartIndex + ((0 : Nat) : Int) < ctx.MessageLen) := by omega
    rw [if_neg hg]
  rw [hloop]
  have hne : ¬ (fh.byteStartIndex + ((0 : Nat) : Int) = ctx.MessageLen) := by omega
  simp only [if_neg hne]
  have hset : st.private_data.set filp
      (some (MyFHPrivateData_t.mk fh.minorDevice (fh.byteStartIndex + ((0 : Nat) : Int)))) =
      st.private_data := by
    apply set_eq_self
    rw [hfh]
    simp
  rw [hset]
  rfl

theorem starved_run (filp : Nat) (md c : Int) (st0 : DriverState)
    (hfh : st0.private_data[filp]? = some (some (MyFHPrivateData_t.mk md c))) :
    ∀ (ops : List Op) (st : DriverState),
      st.private_data = st0.private_data →
      (∃ ctx, subscript st.MyGlobalData.Contexts md = .ok ctx ∧ ctx.MessageLen < c ∧
        MAX_MESSAGE_LEN ≤ ctx.Message.length) →
      (∀ op ∈ ops, Op.keepsStarved st0 filp md c op = true) →
      ∃ st1 rs, run st ops = .ok (st1, rs) ∧ st1.private_data = st0.private_data ∧
        (∀ r ∈ readsOf filp ops rs, r = Result.readDone [] 0) ∧
        (readsOf filp ops rs).length = (countsOf filp ops).length := by
  intro ops
  induction ops with
  | nil =>
    intro st hpd _ _
    exact ⟨st, [], rfl, hpd, by simp [readsOf], rfl⟩
  | cons op ops ih =>
    intro st hpd hinv hops
    have hrest : ∀ op2 ∈ ops, Op.keepsStarved st0 filp md c op2 = true :=
      fun op2 h2 => hops op2 (List.mem_cons_of_mem _ h2)
    have hop := hops op (List.mem_cons_self _ _)
    obtain ⟨ctx, hctx, hlt, hsize⟩ := hinv
    cases op with
    | read f n =>
      simp only [Op.keepsStarved, beq_iff_eq] at hop
      subst hop
      have hread := charDriverFileRead_starved st f _ ctx n (by rw [hpd]; exact hfh) hctx hlt
      obtain ⟨st1, rs, hrun, hpd1, hall, hlen⟩ := ih st hpd ⟨ctx, hctx, hlt, hsize⟩ hrest
      refine ⟨st1, Result.readDone [] 0 :: rs, ?_, hpd1, ?_, ?_⟩
      · rw [run_cons_read _ _ _ _ _ _ _ hread, hrun]
      · intro r hr
        simp only [readsOf, if_true, List.mem_cons] at hr
        rcases hr with h | h
        · exact h
        · exact hall r h
      · simp only [readsOf, countsOf, if_true, List.length_cons, hlen]
    | write g buf =>
      simp only [Op.keepsStarved, Bool.and_eq_true, beq_iff_eq, decide_eq_true_eq] at hop
      obtain ⟨hmin, hsmall⟩ := hop
      have hg : ∃ fhg, st.private_data[g]? = some (some fhg) ∧ fhg.minorDevice = md := by
        unfold minorOf at hmin
        rw [hpd]
        split at hmin
        · rename_i fhg hfhg
          simp only [Option.some.injEq] at hmin
          exact ⟨fhg, hfhg, hmin⟩
        · cases hmin
      obtain ⟨fhg, hfhg, hmdg⟩ := hg
      subst hmdg
      have hw := charDriverFileWrite_spec_length st g fhg ctx buf hfhg hctx (by omega)
      have hctx1 := subscript_set st.MyGlobalData.Contexts fhg.minorDevice ctx
        (MyMinorDevContext_t.mk
          (buf.take (min buf.length MAX_MESSAGE_LEN) ++
            ctx.Message.drop (min buf.length MAX_MESSAGE_LEN))
          ((min buf.length MAX_MESSAGE_LEN : Nat) : Int)) hctx
      have hlen1 : MAX_MESSAGE_LEN ≤ (buf.take (min buf.length MAX_MESSAGE_LEN) ++
          ctx.Message.drop (min buf.length MAX_MESSAGE_LEN)).length := by
        simp only [List.length_append, List.length_take, List.length_drop]
        omega
      obtain ⟨st1, rs, hrun, hpd1, hall, hlen⟩ := ih
        (DriverState.mk
          (MyGlobalData_t.mk (st.MyGlobalData.Contexts.set fhg.minorDevice.toNat
            (MyMinorDevContext_t.mk
              (buf.take (min buf.length MAX_MESSAGE_LEN) ++
                ctx.Message.drop (min buf.length MAX_MESSAGE_LEN))
              ((min buf.length MAX_MESSAGE_LEN : Nat) : Int))))
          st.private_data) hpd
        ⟨MyMinorDevContext_t.mk
          (buf.take (min buf.length MAX_MESSAGE_LEN) ++
            ctx.Message.drop (min buf.length MAX_MESSAGE_LEN))
          ((min buf.length MAX_MESSAGE_LEN : Nat) : Int), hctx1, hsmall, hlen1⟩ hrest
      refine ⟨st1, Result.written ((min buf.length MAX_MESSAGE_LEN : Nat) : Int) :: rs, ?_, hpd1,
        ?_, ?_⟩
      · rw [run_cons_write _ _ _ _ _ _ hw, hrun]
      · intro r hr
        simp only [readsOf] at hr
        exact hall r hr
      · simp only [readsOf, countsOf, hlen]
    | «open» m => simp [Op.keepsStarved] at hop
    | close f => simp [Op.keepsStarved] at hop

/-- C8: when the cursor `c` of a file is strictly beyond the length `L` of its device's
message, every read on it, whatever the count, delivers no byte, returns 0 and leaves
the whole state (the cursor included) as it was; and in any sequence of reads on that
file, interleaved with writes to the device that each accept fewer than `c` bytes,
every read delivers no byte and returns 0. -/
theorem starvation_on_shrink (st : DriverState) (filp : Nat) (fh : MyFHPrivateData_t)
    (ctx : MyMinorDevContext_t) (ops : List Op)
    (hfh : st.private_data[filp]? = some (some fh))
    (hctx : subscript st.MyGlobalData.Contexts fh.minorDevice = .ok ctx)
    (hgt : ctx.MessageLen < fh.byteStartIndex)
    (hsize : MAX_MESSAGE_LEN ≤ ctx.Message.length)
    (hops : ∀ op ∈ ops, Op.keepsStarved st filp fh.minorDevice fh.byteStartIndex op = true) :
    (∀ n : Nat, charDriverFileRead st filp n = .ok (st, [], 0)) ∧
    ∃ st1 rs, run st ops = .ok (st1, rs) ∧
      cursorOf st1 filp = some fh.byteStartIndex ∧
      (∀ r ∈ readsOf filp ops rs, r = Result.readDone [] 0) ∧
      (readsOf filp ops rs).length = (countsOf filp ops).length := by
  refine ⟨fun n => charDriverFileRead_starved st filp fh ctx n hfh hctx hgt, ?_⟩
  obtain ⟨st1, rs, hrun, hpd1, hall, hlen⟩ := starved_run filp fh.minorDevice fh.byteStartIndex
    st hfh ops st rfl ⟨ctx, hctx, hgt, hsize⟩ hops
  refine ⟨st1, rs, hrun, ?_, hall, hlen⟩
  unfold cursorOf
  rw [hpd1, hfh]

theorem starvation_on_shrink_witness :
    (∀ n : Nat, charDriverFileRead starvedState 0 n = .ok (starvedState, [], 0)) ∧
    ∃ st1 rs, run starvedState [Op.read 0 7, Op.write 1 [79, 75, 33], Op.read 0 1,
        Op.write 0 [], Op.read 0 300] = .ok (st1, rs) ∧
      cursorOf st1 0 = some 7 ∧
      (∀ r ∈ readsOf 0 [Op.read 0 7, Op.write 1 [79, 75, 33], Op.read 0 1,
        Op.write 0 [], Op.read 0 300] rs, r = Result.readDone [] 0) ∧
      (readsOf 0 [Op.read 0 7, Op.write 1 [79, 75, 33], Op.read 0 1,
        Op.write 0 [], Op.read 0 300] rs).length =
        (countsOf 0 [Op.read 0 7, Op.write 1 [79, 75, 33], Op.read 0 1,
          Op.write 0 [], Op.read 0 300]).length :=
  starvation_on_shrink starvedState 0 (MyFHPrivateData_t.mk 0 7)
    (MyMinorDevContext_t.mk ([72, 105] ++ (helloWorld.drop 2 ++ List.replicate 245 0)) 2)
    [Op.read 0 7, Op.write 1 [79, 75, 33], Op.read 0 1, Op.write 0 [], Op.read 0 300]
    (by decide) (by decide!) (by decide) (by decide!) (by decide)

/-- C9: let a file have cursor `c > 0` and let a write to its device accept `ret` bytes,
so that the device's length becomes `ret`.  If `ret = c`, the file's next read
(any count) delivers no byte, returns 0 and resets the cursor to 0, and the read
after it, with a count of at least 1, delivers the new message from offset 0.  If
`ret < c`, the next read delivers no byte and the cursor stays `c`. -/
theorem exhaustion_boundary_after_write (st : DriverState) (filp wfilp : Nat)
    (fh wfh : MyFHPrivateData_t) (ctx : MyMinorDevContext_t) (buf : List UInt8) (n n2 : Nat)
    (hfh : st.private_data[filp]? = some (some fh))
    (hwfh : st.private_data[wfilp]? = some (some wfh))
    (hsame : wfh.minorDevice = fh.minorDevice)
    (hctx : subscript st.MyGlobalData.Contexts fh.minorDevice = .ok ctx)
    (hsize : MAX_MESSAGE_LEN ≤ ctx.Message.length)
    (hc : 0 < fh.byteStartIndex)
    (hn2 : 1 ≤ n2) :
    ∃ st1 ret ctx1, charDriverFileWrite st wfilp buf buf.length = .ok (st1, ret) ∧
      subscript st1.MyGlobalData.Contexts fh.minorDevice = .ok ctx1 ∧
      ctx1.MessageLen = ret ∧
      (ret = fh.byteStartIndex →
        ∃ st2, charDriverFileRead st1 filp n = .ok (st2, [], 0) ∧
          cursorOf st2 filp = some 0 ∧
          ∃ st3, charDriverFileRead st2 filp n2 =
            .ok (st3, buf.take (min n2 ret.toNat), ((min n2 ret.toNat : Nat) : Int)) ∧
            1 ≤ min n2 ret.toNat) ∧
      (ret < fh.byteStartIndex →
        ∃ st2, charDriverFileRead st1 filp n = .ok (st2, [], 0) ∧
          cursorOf st2 filp = some fh.byteStartIndex) := by
  obtain ⟨md, c⟩ := fh
  obtain ⟨wmd, wc⟩ := wfh
  simp only at hsame hctx hc
  subst hsame
  have hw := charDriverFileWrite_spec_length st wfilp _ ctx buf hwfh hctx (by omega)
  have hctx1 := subscript_set st.MyGlobalData.Contexts wmd ctx
    (MyMinorDevContext_t.mk
      (buf.take (min buf.length MAX_MESSAGE_LEN) ++
        ctx.Message.drop (min buf.length MAX_MESSAGE_LEN))
      ((min buf.length MAX_MESSAGE_LEN : Nat) : Int)) hctx
  have hlen1 : (((min buf.length MAX_MESSAGE_LEN : Nat) : Int)) ≤
      (((buf.take (min buf.length MAX_MESSAGE_LEN) ++
        ctx.Message.drop (min buf.length MAX_MESSAGE_LEN)).length : Nat) : Int) := by
    simp only [List.length_append, List.length_take, List.length_drop]
    omega
  refine ⟨_, _, _, hw, hctx1, rfl, ?_, ?_⟩
  · intro hret
    simp only at hret
    have hr1 := charDriverFileRead_withCursor
      (DriverState.mk
        (MyGlobalData_t.mk (st.MyGlobalData.Contexts.set wmd.toNat
          (MyMinorDevContext_t.mk
            (buf.take (min buf.length MAX_MESSAGE_LEN) ++
              ctx.Message.drop (min buf.length MAX_MESSAGE_LEN))
            ((min buf.length MAX_MESSAGE_LEN : Nat) : Int))))
        st.private_data) filp _ _ n hfh hctx1 (le_of_lt hc) hlen1
    simp only at hr1
    have hd0 : min n (((min buf.length MAX_MESSAGE_LEN : Nat) : Int) - c).toNat = 0 := by omega
    rw [hd0] at hr1
    have hreset : c + ((0 : Nat) : Int) = ((min buf.length MAX_MESSAGE_LEN : Nat) : Int) := by
      omega
    rw [if_pos hreset] at hr1
    simp only [List.take_zero, Nat.cast_zero] at hr1
    have hfh2 := withCursor_private_data
      (DriverState.mk
        (MyGlobalData_t.mk (st.MyGlobalData.Contexts.set wmd.toNat
          (MyMinorDevContext_t.mk
            (buf.take (min buf.length MAX_MESSAGE_LEN) ++
              ctx.Message.drop (min buf.length MAX_MESSAGE_LEN))
            ((min buf.length MAX_MESSAGE_LEN : Nat) : Int))))
        st.private_data) filp _ wmd 0 hfh
    refine ⟨_, hr1, ?_, ?_⟩
    · unfold cursorOf
      rw [hfh2]
    · have hr2 := charDriverFileRead_withCursor _ filp _ _ n2 hfh2 hctx1 (le_refl _) hlen1
      simp only [sub_zero, Int.toNat_zero, List.drop_zero, Int.toNat_ofNat] at hr2
      have htake : List.take (min n2 (min buf.length MAX_MESSAGE_LEN))
          (buf.take (min buf.length MAX_MESSAGE_LEN) ++
            ctx.Message.drop (min buf.length MAX_MESSAGE_LEN)) =
          buf.take (min n2 (min buf.length MAX_MESSAGE_LEN)) := by
        rw [List.take_append_of_le_length (by simp only [List.length_take]; omega),
          List.take_take]
        congr 1
        omega
      rw [htake] at hr2
      simp only [Int.toNat_ofNat]
      exact ⟨_, hr2, by omega⟩
  · intro hret
    simp only at hret
    have hr1 := charDriverFileRead_starved
      (DriverState.mk
        (MyGlobalData_t.mk (st.MyGlobalData.Contexts.set wmd.toNat
          (MyMinorDevContext_t.mk
            (buf.take (min buf.length MAX_MESSAGE_LEN) ++
              ctx.Message.drop (min buf.length MAX_MESSAGE_LEN))
            ((min buf.length MAX_MESSAGE_LEN : Nat) : Int))))
        st.private_data) filp _ _ n hfh hctx1 hret
    refine ⟨_, hr1, ?_⟩
    unfold cursorOf
    simp only [hfh]

theorem exhaustion_boundary_after_write_witness :
    (∃ st1 ret ctx1, charDriverFileWrite abState 1 [67] ([67] : List UInt8).length =
        .ok (st1, ret) ∧
      subscript st1.MyGlobalData.Contexts 1 = .ok ctx1 ∧
      ctx1.MessageLen = ret ∧
      (ret = 1 →
        ∃ st2, charDriverFileRead st1 0 1 = .ok (st2, [], 0) ∧
          cursorOf st2 0 = some 0 ∧
          ∃ st3, charDriverFileRead st2 0 1 =
            .ok (st3, ([67] : List UInt8).take (min 1 ret.toNat),
              ((min 1 ret.toNat : Nat) : Int)) ∧
            1 ≤ min 1 ret.toNat) ∧
      (ret < 1 →
        ∃ st2, charDriverFileRead st1 0 1 = .ok (st2, [], 0) ∧
          cursorOf st2 0 = some 1)) ∧
    (run initialState [Op.open 1, Op.open 1, Op.write 1 [65, 66], Op.read 0 1, Op.write 1 [67],
        Op.read 0 1, Op.read 0 1]).map (fun r => (cursorOf r.1 0, r.2)) =
      .ok (some 0, [Result.opened 0 0, Result.opened 1 0, Result.written 2,
        Result.readDone [65] 1, Result.written 1, Result.readDone [] 0,
        Result.readDone [67] 1]) :=
  ⟨exhaustion_boundary_after_write abState 0 1 (MyFHPrivateData_t.mk 1 1)
    (MyFHPrivateData_t.mk 1 0) (MyMinorDevContext_t.mk ([65, 66] ++ List.replicate 254 0) 2)
    [67] 1 1 (by decide) (by decide) (by decide) (by decide!) (by decide!) (by decide)
    (by decide),
   by rw [initialState_eq]; decide!⟩

theorem store_eq {α : Type} (arr arr1 : List α) (i : Int) (x : α)
    (h : store arr i x = .ok arr1) : 0 ≤ i ∧ i.toNat < arr.length ∧ arr1 = arr.set i.toNat x := by
  unfold store at h
  split at h
  · rename_i hc
    simp only [Except.ok.injEq] at h
    exact ⟨hc.1, hc.2, h.symm⟩
  · cases h

theorem storeMessageChar_other (g g1 : MyGlobalData_t) (md i : Int) (c : UInt8)
    (h : storeMessageChar g md i c = .ok g1) (ch : Nat) (hne : (ch : Int) ≠ md) :
    g1.Contexts[ch]? = g.Contexts[ch]? := by
  unfold storeMessageChar at h
  split at h
  · cases h
  · split at h
    · cases h
    · split at h
      · cases h
      · rename_i cs hcs
        obtain ⟨h0, _, hset⟩ := store_eq _ _ _ _ hcs
        simp only [Except.ok.injEq] at h
        rw [← h, hset]
        have : md.toNat ≠ ch := by omega
        simp [List.getElem?_set, this]

theorem storeMessageLen_eq (g g1 : MyGlobalData_t) (md len : Int)
    (h : storeMessageLen g md len = .ok g1) :
    0 ≤ md ∧ (∃ ctx1, g1.Contexts[md.toNat]? = some ctx1 ∧ ctx1.MessageLen = len) ∧
      ∀ ch : Nat, (ch : Int) ≠ md → g1.Contexts[ch]? = g.Contexts[ch]? := by
  unfold storeMessageLen at h
  split at h
  · cases h
  · split at h
    · cases h
    · rename_i ctx _ _ cs hcs
      obtain ⟨h0, hlt, hset⟩ := store_eq _ _ _ _ hcs
      simp only [Except.ok.injEq] at h
      rw [← h, hset]
      refine ⟨h0, ⟨MyMinorDevContext_t.mk ctx.Message len, ?_, rfl⟩, ?_⟩
      · simp [List.getElem?_set, hlt]
      · intro ch hne
        have : md.toNat ≠ ch := by omega
        simp [List.getElem?_set, this]

theorem writeLoop_other (md : Int) (buf : List UInt8) (byteCount : Nat) (ch : Nat)
    (hne : (ch : Int) ≠ md) :
    ∀ (fuel : Nat) (g g1 : MyGlobalData_t) (bytesWritten d : Nat),
      writeLoop md buf byteCount fuel g bytesWritten = .ok (g1, d) →
      g1.Contexts[ch]? = g.Contexts[ch]? := by
  intro fuel
  induction fuel with
  | zero =>
    intro g g1 bytesWritten d h
    unfold writeLoop at h
    split at h
    · cases h
    · simp only [Except.ok.injEq, Prod.mk.injEq] at h
      rw [← h.1]
  | succ fuel ih =>
    intro g g1 bytesWritten d h
    unfold writeLoop at h
    split at h
    · simp only at h
      split at h
      · cases h
      · rename_i g2 hg2
        rw [ih _ _ _ _ h]
        exact storeMessageChar_other _ _ _ _ _ hg2 ch hne
    · simp only [Except.ok.injEq, Prod.mk.injEq] at h
      rw [← h.1]

theorem charDriverFileWrite_effect (st st1 : DriverState) (filp : Nat) (buf : List UInt8)
    (byteCount : Nat) (ret : Int)
    (h : charDriverFileWrite st filp buf byteCount = .ok (st1, ret)) :
    ∃ fh, st.private_data[filp]? = some (some fh) ∧ 0 ≤ fh.minorDevice ∧
      (∃ ctx1, st1.MyGlobalData.Contexts[fh.minorDevice.toNat]? = some ctx1 ∧
        ctx1.MessageLen = ret) ∧
      ∀ ch : Nat, (ch : Int) ≠ fh.minorDevice →
        st1.MyGlobalData.Contexts[ch]? = st.MyGlobalData.Contexts[ch]? := by
  unfold charDriverFileWrite at h
  split at h
  · rename_i fh hfh
    split at h
    · cases h
    · rename_i g bytesWritten hloop
      split at h
      · cases h
      · rename_i g1 hg1
        simp only [Except.ok.injEq, Prod.mk.injEq] at h
        obtain ⟨h0, hctx1, hother⟩ := storeMessageLen_eq _ _ _ _ hg1
        refine ⟨fh, hfh, h0, ?_, ?_⟩
        · rw [← h.1, ← h.2]
          exact hctx1
        · intro ch hne
          rw [← h.1]
          simp only
          rw [hother ch hne]
          exact writeLoop_other _ _ _ ch hne _ _ _ _ _ hloop
  · cases h

theorem charDriverFileRead_globalData (st st1 : DriverState) (filp n : Nat) (out : List UInt8)
    (ret : Int) (h : charDriverFileRead st filp n = .ok (st1, out, ret)) :
    st1.MyGlobalData = st.MyGlobalData := by
  unfold charDriverFileRead at h
  split at h
  · split at h
    · cases h
    · simp only at h
      split at h
      · cases h
      · simp only [Except.ok.injEq, Prod.mk.injEq] at h
        rw [← h.1]
  · cases h

theorem charDriverFileClose_globalData (st st1 : DriverState) (filp : Nat) (ret : Int)
    (h : charDriverFileClose st filp = .ok (st1, ret)) :
    st1.MyGlobalData = st.MyGlobalData := by
  unfold charDriverFileClose at h
  split at h
  · simp only [Except.ok.injEq, Prod.mk.injEq] at h
    rw [← h.1]
  · cases h

theorem step_context (st st1 : DriverState) (op : Op) (r : Result) (ch : Nat)
    (h : step st op = .ok (st1, r)) :
    (Op.writesTo st ch op = false →
      contextOf st1 ch = contextOf st ch ∧
        ((∃ ret, r = Result.written ret) → ∃ filp buf, op = Op.write filp buf)) ∧
    (Op.writesTo st ch op = true →
      ∃ ret ctx1, r = Result.written ret ∧ contextOf st1 ch = some ctx1 ∧
        ctx1.MessageLen = ret) := by
  cases op with
  | «open» iminor =>
    simp only [step, charDriverFileOpen, Except.ok.injEq, Prod.mk.injEq] at h
    refine ⟨fun _ => ⟨?_, ?_⟩, fun hw => ?_⟩
    · rw [← h.1]
      rfl
    · rintro ⟨ret, hret⟩
      rw [← h.2] at hret
      cases hret
    · simp [Op.writesTo] at hw
  | read filp n =>
    simp only [step] at h
    split at h
    · cases h
    · rename_i st2 out ret hread
      simp only [Except.ok.injEq, Prod.mk.injEq] at h
      refine ⟨fun _ => ⟨?_, ?_⟩, fun hw => ?_⟩
      · rw [← h.1]
        unfold contextOf
        rw [charDriverFileRead_globalData _ _ _ _ _ _ hread]
      · rintro ⟨ret2, hret⟩
        rw [← h.2] at hret
        cases hret
      · simp [Op.writesTo] at hw
  | write filp buf =>
    simp only [step] at h
    split at h
    · cases h
    · rename_i st2 ret hwrite
      simp only [Except.ok.injEq, Prod.mk.injEq] at h
      obtain ⟨fh, hfh, h0, ⟨ctx1, hctx1, hlen1⟩, hother⟩ :=
        charDriverFileWrite_effect _ _ _ _ _ _ hwrite
      have hminor : minorOf st filp = some fh.minorDevice := by
        unfold minorOf
        rw [hfh]
      refine ⟨fun hw => ⟨?_, fun _ => ⟨filp, buf, rfl⟩⟩, fun hw => ?_⟩
      · simp only [Op.writesTo, hminor, beq_eq_false_iff_ne, ne_eq, Option.some.injEq] at hw
        rw [← h.1]
        unfold contextOf
        exact hother ch (fun hc => hw hc.symm)
      · simp only [Op.writesTo, hminor, beq_iff_eq, Option.some.injEq] at hw
        refine ⟨ret, ctx1, h.2.symm, ?_, hlen1⟩
        rw [← h.1]
        unfold contextOf
        have : fh.minorDevice.toNat = ch := by omega
        rw [← this]
        exact hctx1
  | close filp =>
    simp only [step] at h
    split at h
    · cases h
    · rename_i st2 ret hclose
      simp only [Except.ok.injEq, Prod.mk.injEq] at h
      refine ⟨fun _ => ⟨?_, ?_⟩, fun hw => ?_⟩
      · rw [← h.1]
        unfold contextOf
        rw [charDriverFileClose_globalData _ _ _ _ hclose]
      · rintro ⟨ret2, hret⟩
        rw [← h.2] at hret
        cases hret
      · simp [Op.writesTo] at hw

theorem run_length_last_write (ch : Nat) :
    ∀ (ops : List Op) (st st1 : DriverState) (rs : List Result) (acc : Int),
      run st ops = .ok (st1, rs) →
      (∃ ctx, contextOf st ch = some ctx ∧ ctx.MessageLen = acc) →
      ∃ ctx1, contextOf st1 ch = some ctx1 ∧
        ctx1.MessageLen = lastWriteReturn ch st ops acc := by
  intro ops
  induction ops with
  | nil =>
    intro st st1 rs acc h hinv
    simp only [run, Except.ok.injEq, Prod.mk.injEq] at h
    rw [← h.1]
    exact hinv
  | cons op ops ih =>
    intro st st1 rs acc h hinv
    unfold run at h
    split at h
    · cases h
    · rename_i st2 r hstep
      split at h
      · cases h
      · rename_i st3 rs2 hrun
        simp only [Except.ok.injEq, Prod.mk.injEq] at h
        rw [← h.1]
        obtain ⟨hno, hyes⟩ := step_context st st2 op r ch hstep
        cases hw : Op.writesTo st ch op with
        | true =>
          obtain ⟨ret, ctx1, hr, hctx1, hlen1⟩ := hyes hw
          subst hr
          simp only [lastWriteReturn, hstep, hw, if_true]
          exact ih st2 st3 rs2 ret hrun ⟨ctx1, hctx1, hlen1⟩
        | false =>
          obtain ⟨hsame, _⟩ := hno hw
          have hacc : lastWriteReturn ch st (op :: ops) acc = lastWriteReturn ch st2 ops acc := by
            simp only [lastWriteReturn, hstep, hw]
            cases r <;> simp
          rw [hacc]
          exact ih st2 st3 rs2 acc hrun (by rw [hsame]; exact hinv)

theorem contextOf_initialState (ch : Nat) (hch : ch < MINOR_DEV_MAX_NUM) :
    contextOf initialState ch =
      some (MyMinorDevContext_t.mk (List.replicate MAX_MESSAGE_LEN 0) 0) := by
  rw [initialState_eq]
  simp only [contextOf, MyGlobalData_static]
  rw [List.getElem?_replicate]
  simp [hch]

/-- C10: in every state reached from the initial state by a run of open, read, write
and close calls, the stored length of each minor device `ch < MINOR_DEV_MAX_NUM` is the
value returned by the most recent write to `ch` in that run, and 0 when the run has no
write to `ch`; and a further call that is not a write to `ch` (an open, a read, a
close, or a write to another device) leaves the record of `ch`, message and length,
as it was. -/
theorem length_is_last_write_return (ops : List Op) (st : DriverState) (rs : List Result)
    (hrun : run initialState ops = .ok (st, rs)) :
    (∀ ch : Nat, ch < MINOR_DEV_MAX_NUM →
      ∃ ctx, contextOf st ch = some ctx ∧
        ctx.MessageLen = lastWriteReturn ch initialState ops 0) ∧
    (∀ (op : Op) (st1 : DriverState) (r : Result) (ch : Nat),
      step st op = .ok (st1, r) → Op.writesTo st ch op = false →
      contextOf st1 ch = contextOf st ch) := by
  refine ⟨fun ch hch => ?_, fun op st1 r ch hstep hw => ?_⟩
  · exact run_length_last_write ch ops initialState st rs 0 hrun
      ⟨_, contextOf_initialState ch hch, rfl⟩
  · exact ((step_context st st1 op r ch hstep).1 hw).1

theorem sampleOps_run_ok : (run initialState sampleOps).toBool = true := by
  rw [initialState_eq]
  decide!

theorem length_is_last_write_return_witness :
    (∃ st rs, run initialState sampleOps = .ok (st, rs) ∧
      (∀ ch : Nat, ch < MINOR_DEV_MAX_NUM →
        ∃ ctx, contextOf st ch = some ctx ∧
          ctx.MessageLen = lastWriteReturn ch initialState sampleOps 0) ∧
      (∀ (op : Op) (st1 : DriverState) (r : Result) (ch : Nat),
        step st op = .ok (st1, r) → Op.writesTo st ch op = false →
        contextOf st1 ch = contextOf st ch)) ∧
    (List.range MINOR_DEV_MAX_NUM).map (fun ch => lastWriteReturn ch initialState sampleOps 0) =
      [0, 1, 11, 0, 0] := by
  refine ⟨?_, by rw [initialState_eq]; decide!⟩
  cases hr : run initialState sampleOps with
  | error e =>
    have hok := sampleOps_run_ok
    rw [hr] at hok
    cases hok
  | ok r =>
    exact ⟨r.1, r.2, rfl, length_is_last_write_return sampleOps r.1 r.2 hr⟩

/-- C11 (counterexample): `open` on minor number 5, outside `0 .. MINOR_DEV_MAX_NUM - 1`,
does not fail: from the initial state it returns 0 and creates file 0, bound to
minor device 5 with cursor 0. -/
theorem charDriverFileOpen_out_of_range_succeeds :
    charDriverFileOpen initialState 5 =
      (DriverState.mk MyGlobalData_static [some (MyFHPrivateData_t.mk 5 0)], 0, 0) ∧
    ¬ (5 < MINOR_DEV_MAX_NUM) := by
  rw [initialState_eq]
  exact ⟨rfl, by decide⟩

/-- C11 (amended): for every minor number outside `0 .. MINOR_DEV_MAX_NUM - 1`, `open`
does not validate it: it returns 0 and creates a new file bound to that number with
cursor 0, leaves the records of the files already there as they were, and leaves the
message and the length of every minor device unchanged. -/
theorem charDriverFileOpen_out_of_range (st : DriverState) (iminor : Nat)
    (_hout : MINOR_DEV_MAX_NUM ≤ iminor) :
    ∃ st1 filp, charDriverFileOpen st iminor = (st1, filp, 0) ∧
      st.private_data[filp]? = none ∧
      st1.private_data[filp]? = some (some (MyFHPrivateData_t.mk (iminor : Int) 0)) ∧
      (∀ f : Nat, f ≠ filp → st1.private_data[f]? = st.private_data[f]?) ∧
      st1.MyGlobalData = st.MyGlobalData ∧
      ∀ ch : Nat, contextOf st1 ch = contextOf st ch := by
  refine ⟨_, _, rfl, ?_, ?_, ?_, rfl, fun ch => rfl⟩
  · simp
  · simp [charDriverFileOpen]
  · intro f hf
    simp only [charDriverFileOpen]
    by_cases hlt : f < st.private_data.length
    · rw [List.getElem?_append_left hlt]
    · have hgt : st.private_data.length < f := by omega
      rw [List.getElem?_eq_none (by simp; omega), List.getElem?_eq_none (by omega)]

theorem charDriverFileOpen_out_of_range_witness :
    ∃ st1 filp, charDriverFileOpen helloState 7 = (st1, filp, 0) ∧
      helloState.private_data[filp]? = none ∧
      st1.private_data[filp]? = some (some (MyFHPrivateData_t.mk ((7 : Nat) : Int) 0)) ∧
      (∀ f : Nat, f ≠ filp → st1.private_data[f]? = helloState.private_data[f]?) ∧
      st1.MyGlobalData = helloState.MyGlobalData ∧
      ∀ ch : Nat, contextOf st1 ch = contextOf helloState ch :=
  charDriverFileOpen_out_of_range helloState 7 (by decide)

theorem charDriverFileClose_ret (s s1 : DriverState) (g : Nat) (ret : Int)
    (h : charDriverFileClose s g = .ok (s1, ret)) : ret = 0 := by
  unfold charDriverFileClose at h
  split at h
  · simp only [Except.ok.injEq, Prod.mk.injEq] at h
    exact h.2.symm
  · cases h

theorem charDriverFileRead_ret (s s1 : DriverState) (g n : Nat) (out : List UInt8) (ret : Int)
    (h : charDriverFileRead s g n = .ok (s1, out, ret)) : 0 ≤ ret := by
  unfold charDriverFileRead at h
  split at h
  · split at h
    · cases h
    · simp only at h
      split at h
      · cases h
      · simp only [Except.ok.injEq, Prod.mk.injEq] at h
        rw [← h.2.2]
        exact Int.ofNat_nonneg _
  · cases h

theorem charDriverFileWrite_ret (s s1 : DriverState) (g : Nat) (buf : List UInt8)
    (byteCount : Nat) (ret : Int)
    (h : charDriverFileWrite s g buf byteCount = .ok (s1, ret)) : 0 ≤ ret := by
  unfold charDriverFileWrite at h
  split at h
  · split at h
    · cases h
    · split at h
      · cases h
      · simp only [Except.ok.injEq, Prod.mk.injEq] at h
        rw [← h.2]
        exact Int.ofNat_nonneg _
  · cases h

/-- C12 (counterexample): after `open` and `close` of file 0 (both return 0), a second
`close`, a `read` or a `write` on file 0 hands no error value back to its caller: the
source tests no handle and its `close` can only `return 0`; each of these calls uses
the freed record, which is the fault `badPointer` (undefined behaviour), not a return
value. -/
theorem closed_handle_no_error_return :
    (run initialState [Op.open 0, Op.close 0]) =
      .ok (closedState, [Result.opened 0 0, Result.closed 0]) ∧
    (¬ ∃ st1 ret, charDriverFileClose closedState 0 = .ok (st1, ret) ∧ ret < 0) ∧
    (¬ ∃ st1 out ret, charDriverFileRead closedState 0 1 = .ok (st1, out, ret) ∧ ret < 0) ∧
    (¬ ∃ st1 ret, charDriverFileWrite closedState 0 [65] 1 = .ok (st1, ret) ∧ ret < 0) ∧
    charDriverFileClose closedState 0 = .error Fault.badPointer := by
  refine ⟨by rw [initialState_eq]; rfl, ?_, ?_, ?_, rfl⟩
  · rintro ⟨st1, ret, h, hneg⟩
    have := charDriverFileClose_ret _ _ _ _ h
    omega
  · rintro ⟨st1, out, ret, h, hneg⟩
    have := charDriverFileRead_ret _ _ _ _ _ _ h
    omega
  · rintro ⟨st1, ret, h, hneg⟩
    have := charDriverFileWrite_ret _ _ _ _ _ _ h
    omega

/-- C12 (amended): the driver has no invalid-handle error.  `close` on an open file
frees the file's record and returns 0, leaving every other file's record and every
minor device as they were; once the file is closed, a further `read`, `write` or
`close` on it is not defined behaviour (the fault `badPointer`) and hands back no
value; and whatever `close` returns is 0 and whatever `read` or `write` return is
not negative, so that no call ever reports an error. -/
theorem charDriverFileClose_frees_without_check (st : DriverState) (filp : Nat)
    (fh : MyFHPrivateData_t)
    (hfh : st.private_data[filp]? = some (some fh)) :
    (∃ st1, charDriverFileClose st filp = .ok (st1, 0) ∧
      st1.MyGlobalData = st.MyGlobalData ∧
      st1.private_data[filp]? = some none ∧
      (∀ f : Nat, f ≠ filp → st1.private_data[f]? = st.private_data[f]?) ∧
      (∀ n : Nat, charDriverFileRead st1 filp n = .error Fault.badPointer) ∧
      (∀ (buf : List UInt8) (byteCount : Nat),
        charDriverFileWrite st1 filp buf byteCount = .error Fault.badPointer) ∧
      charDriverFileClose st1 filp = .error Fault.badPointer) ∧
    (∀ (s s1 : DriverState) (g : Nat) (ret : Int),
      charDriverFileClose s g = .ok (s1, ret) → ret = 0) ∧
    (∀ (s s1 : DriverState) (g n : Nat) (out : List UInt8) (ret : Int),
      charDriverFileRead s g n = .ok (s1, out, ret) → 0 ≤ ret) ∧
    (∀ (s s1 : DriverState) (g : Nat) (buf : List UInt8) (byteCount : Nat) (ret : Int),
      charDriverFileWrite s g buf byteCount = .ok (s1, ret) → 0 ≤ ret) := by
  have hnone : (st.private_data.set filp none)[filp]? = some none :=
    private_data_set_self st filp fh none hfh
  refine ⟨⟨DriverState.mk st.MyGlobalData (st.private_data.set filp none), ?_, rfl, hnone, ?_,
    ?_, ?_, ?_⟩, charDriverFileClose_ret, charDriverFileRead_ret, charDriverFileWrite_ret⟩
  · unfold charDriverFileClose
    rw [hfh]
  · intro f hf
    have : filp ≠ f := fun h => hf h.symm
    simp [List.getElem?_set, this]
  · intro n
    unfold charDriverFileRead
    simp only [hnone]
  · intro buf byteCount
    unfold charDriverFileWrite
    simp only [hnone]
  · unfold charDriverFileClose
    simp only [hnone]

theorem charDriverFileClose_frees_without_check_witness :
    (∃ st1, charDriverFileClose helloState 1 = .ok (st1, 0) ∧
      st1.MyGlobalData = helloState.MyGlobalData ∧
      st1.private_data[1]? = some none ∧
      (∀ f : Nat, f ≠ 1 → st1.private_data[f]? = helloState.private_data[f]?) ∧
      (∀ n : Nat, charDriverFileRead st1 1 n = .error Fault.badPointer) ∧
      (∀ (buf : List UInt8) (byteCount : Nat),
        charDriverFileWrite st1 1 buf byteCount = .error Fault.badPointer) ∧
      charDriverFileClose st1 1 = .error Fault.badPointer) ∧
    (∀ (s s1 : DriverState) (g : Nat) (ret : Int),
      charDriverFileClose s g = .ok (s1, ret) → ret = 0) ∧
    (∀ (s s1 : DriverState) (g n : Nat) (out : List UInt8) (ret : Int),
      charDriverFileRead s g n = .ok (s1, out, ret) → 0 ≤ ret) ∧
    (∀ (s s1 : DriverState) (g : Nat) (buf : List UInt8) (byteCount : Nat) (ret : Int),
      charDriverFileWrite s g buf byteCount = .ok (s1, ret) → 0 ≤ ret) :=
  charDriverFileClose_frees_without_check helloState 1 (MyFHPrivateData_t.mk 0 0) (by decide)

theorem charDriverFileRead_private_data (st st1 : DriverState) (g n : Nat) (out : List UInt8)
    (ret : Int) (h : charDriverFileRead st g n = .ok (st1, out, ret)) :
    ∃ x, st1.private_data = st.private_data.set g x := by
  unfold charDriverFileRead at h
  split at h
  · split at h
    · cases h
    · simp only at h
      split at h
      · cases h
      · simp only [Except.ok.injEq, Prod.mk.injEq] at h
        exact ⟨_, by rw [← h.1]⟩
  · cases h

theorem charDriverFileClose_private_data (st st1 : DriverState) (g : Nat) (ret : Int)
    (h : charDriverFileClose st g = .ok (st1, ret)) :
    st1.private_data = st.private_data.set g none := by
  unfold charDriverFileClose at h
  split at h
  · simp only [Except.ok.injEq, Prod.mk.injEq] at h
    rw [← h.1]
  · cases h

theorem subscript_getElem? {α : Type} (arr : List α) (i : Int) (x : α)
    (h : subscript arr i = .ok x) : arr[i.toNat]? = some x :=
  ((subscript_ok_iff arr i x).1 h).2

theorem subscript_congr {α : Type} (arr arr1 : List α) (i : Int)
    (h : arr1[i.toNat]? = arr[i.toNat]?) : subscript arr1 i = subscript arr i := by
  unfold subscript
  rw [h]

/-- C14: a read on a file whose cursor `c` satisfies `0 ≤ c ≤ L` leaves a cursor `c2`
with `0 ≤ c2 ≤ L`, and `c2 ≠ L` when `L > 0`; and if any single call takes the file,
still open afterwards, to a cursor outside `0 .. L1` for the new length `L1` of its
device, then that call is a write to the file's device that made the length smaller
than the cursor. -/
theorem cursor_bound (st : DriverState) (filp : Nat) (fh : MyFHPrivateData_t)
    (ctx : MyMinorDevContext_t)
    (hfh : st.private_data[filp]? = some (some fh))
    (hctx : subscript st.MyGlobalData.Contexts fh.minorDevice = .ok ctx)
    (hc0 : 0 ≤ fh.byteStartIndex)
    (hcL : fh.byteStartIndex ≤ ctx.MessageLen)
    (hL : ctx.MessageLen ≤ (ctx.Message.length : Int)) :
    (∀ n : Nat, ∃ st1 out ret c2, charDriverFileRead st filp n = .ok (st1, out, ret) ∧
      cursorOf st1 filp = some c2 ∧
      subscript st1.MyGlobalData.Contexts fh.minorDevice = .ok ctx ∧
      0 ≤ c2 ∧ c2 ≤ ctx.MessageLen ∧ (0 < ctx.MessageLen → c2 ≠ ctx.MessageLen)) ∧
    (∀ (op : Op) (st1 : DriverState) (r : Result) (fh1 : MyFHPrivateData_t)
        (ctx1 : MyMinorDevContext_t),
      step st op = .ok (st1, r) →
      st1.private_data[filp]? = some (some fh1) →
      subscript st1.MyGlobalData.Contexts fh1.minorDevice = .ok ctx1 →
      ¬ (0 ≤ fh1.byteStartIndex ∧ fh1.byteStartIndex ≤ ctx1.MessageLen) →
      ∃ g buf, op = Op.write g buf ∧ minorOf st g = some fh.minorDevice ∧
        ctx1.MessageLen < fh.byteStartIndex ∧ ctx1.MessageLen < ctx.MessageLen) := by
  have hread : ∀ n : Nat, ∃ st1 out ret c2, charDriverFileRead st filp n = .ok (st1, out, ret) ∧
      st1.private_data[filp]? = some (some (MyFHPrivateData_t.mk fh.minorDevice c2)) ∧
      st1.MyGlobalData = st.MyGlobalData ∧
      0 ≤ c2 ∧ c2 ≤ ctx.MessageLen ∧ (0 < ctx.MessageLen → c2 ≠ ctx.MessageLen) := by
    intro n
    refine ⟨_, _, _, _, charDriverFileRead_withCursor st filp fh ctx n hfh hctx hc0 hL,
      withCursor_private_data st filp fh _ _ hfh, rfl, ?_, ?_, ?_⟩
    · split <;> omega
    · split <;> omega
    · intro hpos
      split <;> omega
  have hlt := private_data_lt st filp fh hfh
  have same : ∀ (st1 : DriverState) (fh1 : MyFHPrivateData_t) (ctx1 : MyMinorDevContext_t),
      st1.private_data[filp]? = st.private_data[filp]? →
      st1.MyGlobalData.Contexts[fh.minorDevice.toNat]? =
        st.MyGlobalData.Contexts[fh.minorDevice.toNat]? →
      st1.private_data[filp]? = some (some fh1) →
      subscript st1.MyGlobalData.Contexts fh1.minorDevice = .ok ctx1 →
      0 ≤ fh1.byteStartIndex ∧ fh1.byteStartIndex ≤ ctx1.MessageLen := by
    intro st1 fh1 ctx1 hpd hg hfh1 hctx1
    rw [hpd, hfh] at hfh1
    simp only [Option.some.injEq] at hfh1
    subst hfh1
    rw [subscript_congr _ _ _ hg, hctx] at hctx1
    simp only [Except.ok.injEq] at hctx1
    subst hctx1
    exact ⟨hc0, hcL⟩
  refine ⟨?_, ?_⟩
  · intro n
    obtain ⟨st1, out, ret, c2, hr, hpd, hg, h1, h2, h3⟩ := hread n
    refine ⟨st1, out, ret, c2, hr, ?_, ?_, h1, h2, h3⟩
    · unfold cursorOf
      rw [hpd]
    · rw [hg]
      exact hctx
  · intro op st1 r fh1 ctx1 hstep hfh1 hctx1 hbad
    cases op with
    | «open» iminor =>
      simp only [step, charDriverFileOpen, Except.ok.injEq, Prod.mk.injEq] at hstep
      exfalso
      apply hbad
      apply same st1 fh1 ctx1 _ _ hfh1 hctx1
      · rw [← hstep.1]
        exact List.getElem?_append_left hlt
      · rw [← hstep.1]
    | read g n =>
      simp only [step] at hstep
      split at hstep
      · cases hstep
      · rename_i st2 out ret hr
        simp only [Except.ok.injEq, Prod.mk.injEq] at hstep
        obtain ⟨hst, _⟩ := hstep
        subst hst
        exfalso
        apply hbad
        by_cases hg : g = filp
        · subst hg
          obtain ⟨st1, out1, ret1, c2, hr1, hpd, hgd, h1, h2, _⟩ := hread n
          rw [hr] at hr1
          simp only [Except.ok.injEq, Prod.mk.injEq] at hr1
          obtain ⟨hst, _, _⟩ := hr1
          subst hst
          rw [hpd] at hfh1
          simp only [Option.some.injEq] at hfh1
          subst hfh1
          rw [hgd, hctx] at hctx1
          simp only [Except.ok.injEq] at hctx1
          subst hctx1
          exact ⟨h1, h2⟩
        · apply same st2 fh1 ctx1 _ _ hfh1 hctx1
          · obtain ⟨x, hx⟩ := charDriverFileRead_private_data _ _ _ _ _ _ hr
            rw [hx]
            simp [List.getElem?_set, hg]
          · rw [charDriverFileRead_globalData _ _ _ _ _ _ hr]
    | write g buf =>
      simp only [step] at hstep
      split at hstep
      · cases hstep
      · rename_i st2 ret hw
        simp only [Except.ok.injEq, Prod.mk.injEq] at hstep
        obtain ⟨hst, _⟩ := hstep
        subst hst
        have hpd := charDriverFileWrite_private_data _ _ _ _ _ _ hw
        obtain ⟨fhg, hfhg, h0, ⟨ctx2, hctx2, hlen2⟩, hother⟩ :=
          charDriverFileWrite_effect _ _ _ _ _ _ hw
        have hmd0 := (subscript_lt _ _ _ hctx).1
        by_cases hmd : fhg.minorDevice = fh.minorDevice
        · have hfh1' := hfh1
          rw [hpd, hfh] at hfh1'
          simp only [Option.some.injEq] at hfh1'
          subst hfh1'
          have hget := subscript_getElem? _ _ _ hctx1
          rw [← hmd, hctx2] at hget
          simp only [Option.some.injEq] at hget
          subst hget
          have hret := charDriverFileWrite_ret _ _ _ _ _ _ hw
          refine ⟨g, buf, rfl, ?_, ?_, ?_⟩
          · simp only [minorOf, hfhg, hmd]
          · omega
          · omega
        · exfalso
          apply hbad
          apply same st2 fh1 ctx1 _ _ hfh1 hctx1
          · rw [hpd]
          · apply hother
            intro heq
            apply hmd
            omega
    | close g =>
      simp only [step] at hstep
      split at hstep
      · cases hstep
      · rename_i st2 ret hcl
        simp only [Except.ok.injEq, Prod.mk.injEq] at hstep
        obtain ⟨hst, _⟩ := hstep
        subst hst
        have hpd := charDriverFileClose_private_data _ _ _ _ hcl
        by_cases hg : g = filp
        · subst hg
          rw [hpd, private_data_set_self st g fh none hfh] at hfh1
          simp at hfh1
        · exfalso
          apply hbad
          apply same st2 fh1 ctx1 _ _ hfh1 hctx1
          · rw [hpd]
            simp [List.getElem?_set, hg]
          · rw [charDriverFileClose_globalData _ _ _ _ hcl]

theorem cursor_bound_witness :
    (∀ n : Nat, ∃ st1 out ret c2, charDriverFileRead abState 0 n = .ok (st1, out, ret) ∧
      cursorOf st1 0 = some c2 ∧
      subscript st1.MyGlobalData.Contexts 1 =
        .ok (MyMinorDevContext_t.mk ([65, 66] ++ List.replicate 254 0) 2) ∧
      0 ≤ c2 ∧ c2 ≤ 2 ∧ ((0 : Int) < 2 → c2 ≠ 2)) ∧
    (∀ (op : Op) (st1 : DriverState) (r : Result) (fh1 : MyFHPrivateData_t)
        (ctx1 : MyMinorDevContext_t),
      step abState op = .ok (st1, r) →
      st1.private_data[0]? = some (some fh1) →
      subscript st1.MyGlobalData.Contexts fh1.minorDevice = .ok ctx1 →
      ¬ (0 ≤ fh1.byteStartIndex ∧ fh1.byteStartIndex ≤ ctx1.MessageLen) →
      ∃ g buf, op = Op.write g buf ∧ minorOf abState g = some 1 ∧
        ctx1.MessageLen < 1 ∧ ctx1.MessageLen < 2) :=
  cursor_bound abState 0 (MyFHPrivateData_t.mk 1 1)
    (MyMinorDevContext_t.mk ([65, 66] ++ List.replicate 254 0) 2)
    (by decide) (by decide!) (by decide) (by decide) (by decide!)

theorem Safe_initialState : Safe initialState := by
  rw [initialState_eq]
  refine ⟨by simp [MyGlobalData_static], ?_, ?_⟩
  · intro ctx hctx
    simp only [MyGlobalData_static, List.mem_replicate] at hctx
    rw [hctx.2]
    simp
  · intro fh hfh
    simp at hfh

theorem Safe_context (st : DriverState) (filp : Nat) (fh : MyFHPrivateData_t)
    (hs : Safe st) (hfh : st.private_data[filp]? = some (some fh)) :
    ∃ ctx, subscript st.MyGlobalData.Contexts fh.minorDevice = .ok ctx ∧
      ctx.Message.length = MAX_MESSAGE_LEN ∧ 0 ≤ ctx.MessageLen ∧
      ctx.MessageLen ≤ (MAX_MESSAGE_LEN : Int) ∧ 0 ≤ fh.byteStartIndex := by
  obtain ⟨hlen, hctxs, hfiles⟩ := hs
  obtain ⟨h0, h5, hc⟩ := hfiles fh (List.getElem?_mem hfh)
  have hlt : fh.minorDevice.toNat < st.MyGlobalData.Contexts.length := by omega
  have hsub : subscript st.MyGlobalData.Contexts fh.minorDevice =
      .ok (st.MyGlobalData.Contexts[fh.minorDevice.toNat]) := by
    rw [subscript_ok_iff]
    exact ⟨h0, List.getElem?_eq_getElem hlt⟩
  obtain ⟨h1, h2, h3⟩ := hctxs _ (List.getElem_mem hlt)
  exact ⟨_, hsub, h1, h2, h3, hc⟩

theorem step_read (st st1 : DriverState) (filp n : Nat) (out : List UInt8) (ret : Int)
    (h : charDriverFileRead st filp n = .ok (st1, out, ret)) :
    step st (Op.read filp n) = .ok (st1, Result.readDone out ret) := by
  simp only [step, h]

theorem step_write (st st1 : DriverState) (filp : Nat) (buf : List UInt8) (ret : Int)
    (h : charDriverFileWrite st filp buf buf.length = .ok (st1, ret)) :
    step st (Op.write filp buf) = .ok (st1, Result.written ret) := by
  simp only [step, h]

theorem step_close (st st1 : DriverState) (filp : Nat) (ret : Int)
    (h : charDriverFileClose st filp = .ok (st1, ret)) :
    step st (Op.close filp) = .ok (st1, Result.closed ret) := by
  simp only [step, h]

theorem step_safe (st : DriverState) (op : Op) (hs : Safe st) (hop : Op.inRange op = true) :
    step st op = .error Fault.badPointer ∨
      ∃ st1 r, step st op = .ok (st1, r) ∧ Safe st1 := by
  cases op with
  | «open» iminor =>
    right
    simp only [Op.inRange, decide_eq_true_eq] at hop
    refine ⟨_, _, rfl, hs.1, hs.2.1, ?_⟩
    intro fh hfh
    simp only [charDriverFileOpen, List.mem_append, List.mem_singleton,
      Option.some.injEq] at hfh
    rcases hfh with h | h
    · exact hs.2.2 fh h
    · subst h
      simp only
      omega
  | read filp n =>
    cases hfh : st.private_data[filp]? with
    | none =>
      left
      simp [step, charDriverFileRead, hfh]
    | some x =>
      cases x with
      | none =>
        left
        simp [step, charDriverFileRead, hfh]
      | some fh =>
        right
        obtain ⟨ctx, hctx, hsize, hl0, hl1, hc⟩ := Safe_context st filp fh hs hfh
        have hr := charDriverFileRead_spec st filp fh ctx n hfh hctx hc (by omega)
        refine ⟨_, _, step_read _ _ _ _ _ _ hr, hs.1, hs.2.1, ?_⟩
        intro fh1 hfh1
        rcases List.mem_or_eq_of_mem_set hfh1 with h | h
        · exact hs.2.2 fh1 h
        · simp only [Option.some.injEq] at h
          subst h
          obtain ⟨h0, h5, _⟩ := hs.2.2 fh (List.getElem?_mem hfh)
          refine ⟨h0, h5, ?_⟩
          simp only
          split <;> omega
  | write filp buf =>
    cases hfh : st.private_data[filp]? with
    | none =>
      left
      simp [step, charDriverFileWrite, hfh]
    | some x =>
      cases x with
      | none =>
        left
        simp [step, charDriverFileWrite, hfh]
      | some fh =>
        right
        obtain ⟨ctx, hctx, hsize, hl0, hl1, hc⟩ := Safe_context st filp fh hs hfh
        have hw := charDriverFileWrite_spec_length st filp fh ctx buf hfh hctx (by omega)
        refine ⟨_, _, step_write _ _ _ _ _ hw, ?_, ?_, hs.2.2⟩
        · simp only [List.length_set]
          exact hs.1
        · intro ctx1 hctx1
          rcases List.mem_or_eq_of_mem_set hctx1 with h | h
          · exact hs.2.1 ctx1 h
          · subst h
            simp only [List.length_append, List.length_take, List.length_drop]
            omega
  | close filp =>
    cases hfh : st.private_data[filp]? with
    | none =>
      left
      simp [step, charDriverFileClose, hfh]
    | some x =>
      cases x with
      | none =>
        left
        simp [step, charDriverFileClose, hfh]
      | some fh =>
        right
        have hcl : charDriverFileClose st filp =
            .ok (DriverState.mk st.MyGlobalData (st.private_data.set filp none), 0) := by
          simp only [charDriverFileClose, hfh]
        refine ⟨_, _, step_close _ _ _ _ hcl, hs.1, hs.2.1, ?_⟩
        intro fh1 hfh1
        rcases List.mem_or_eq_of_mem_set hfh1 with h | h
        · exact hs.2.2 fh1 h
        · cases h

theorem run_safe :
    ∀ (ops : List Op) (st : DriverState), Safe st → (∀ op ∈ ops, Op.inRange op = true) →
      run st ops = .error Fault.badPointer ∨
        ∃ st1 rs, run st ops = .ok (st1, rs) ∧ Safe st1 := by
  intro ops
  induction ops with
  | nil =>
    intro st hs _
    exact Or.inr ⟨st, [], rfl, hs⟩
  | cons op ops ih =>
    intro st hs hops
    rcases step_safe st op hs (hops op (List.mem_cons_self _ _)) with h | ⟨st1, r, h, hs1⟩
    · left
      simp only [run, h]
    · rcases ih st1 hs1 (fun op2 h2 => hops op2 (List.mem_cons_of_mem _ h2)) with
        h2 | ⟨st2, rs, h2, hs2⟩
      · left
        simp only [run, h, h2]
      · right
        exact ⟨st2, r :: rs, by simp only [run, h, h2], hs2⟩

/-- C15: a run from the initial state whose `open` calls name minor numbers below
`MINOR_DEV_MAX_NUM` never takes the out-of-bounds branch of a subscript (and never
runs a loop short): it either stops at a call on a file that is not open, or it
reaches a state in which every length lies in `0 .. MAX_MESSAGE_LEN`, every buffer
has `MAX_MESSAGE_LEN` bytes and every cursor is at least 0; and in such a state a read
or a write on an open file, for every byte count, returns a count in
`0 .. MAX_MESSAGE_LEN`. -/
theorem buffer_bounds_safety (ops : List Op) (hops : ∀ op ∈ ops, Op.inRange op = true) :
    run initialState ops = .error Fault.badPointer ∨
    ∃ st rs, run initialState ops = .ok (st, rs) ∧ Safe st ∧
      ∀ (filp : Nat) (fh : MyFHPrivateData_t),
        st.private_data[filp]? = some (some fh) →
        (∀ n : Nat, ∃ st1 out ret, charDriverFileRead st filp n = .ok (st1, out, ret) ∧
          0 ≤ ret ∧ ret ≤ (MAX_MESSAGE_LEN : Int) ∧ (out.length : Int) = ret) ∧
        (∀ (buf : List UInt8) (byteCount : Nat), ∃ st1 ret,
          charDriverFileWrite st filp buf byteCount = .ok (st1, ret) ∧
          0 ≤ ret ∧ ret ≤ (MAX_MESSAGE_LEN : Int)) := by
  rcases run_safe ops initialState Safe_initialState hops with h | ⟨st, rs, h, hs⟩
  · exact Or.inl h
  · refine Or.inr ⟨st, rs, h, hs, ?_⟩
    intro filp fh hfh
    obtain ⟨ctx, hctx, hsize, hl0, hl1, hc⟩ := Safe_context st filp fh hs hfh
    refine ⟨fun n => ?_, fun buf byteCount => ?_⟩
    · refine ⟨_, _, _, charDriverFileRead_spec st filp fh ctx n hfh hctx hc (by omega), ?_, ?_,
        ?_⟩
      · omega
      · omega
      · rw [List.length_take, List.length_drop]
        omega
    · obtain ⟨msg, hw, _, _⟩ := charDriverFileWrite_spec st filp fh ctx buf byteCount hfh hctx
        (by omega)
      exact ⟨_, _, hw, by omega, by omega⟩

theorem buffer_bounds_safety_witness :
    run initialState bigOps = .error Fault.badPointer ∨
    ∃ st rs, run initialState bigOps = .ok (st, rs) ∧ Safe st ∧
      ∀ (filp : Nat) (fh : MyFHPrivateData_t),
        st.private_data[filp]? = some (some fh) →
        (∀ n : Nat, ∃ st1 out ret, charDriverFileRead st filp n = .ok (st1, out, ret) ∧
          0 ≤ ret ∧ ret ≤ (MAX_MESSAGE_LEN : Int) ∧ (out.length : Int) = ret) ∧
        (∀ (buf : List UInt8) (byteCount : Nat), ∃ st1 ret,
          charDriverFileWrite st filp buf byteCount = .ok (st1, ret) ∧
          0 ≤ ret ∧ ret ≤ (MAX_MESSAGE_LEN : Int)) :=
  buffer_bounds_safety bigOps (by decide)

theorem take_drop_written (buf tail : List UInt8) (d c k : Nat) (hd : d ≤ buf.length)
    (hk : k ≤ d - c) :
    List.take k (List.drop c (List.take d buf ++ tail)) = List.take k (List.drop c buf) := by
  apply List.ext_getElem?
  intro i
  by_cases hi : i < k
  · have h1 : c + i < (List.take d buf).length := by
      rw [List.length_take]
      omega
    rw [List.getElem?_take_of_lt hi, List.getElem?_take_of_lt hi, List.getElem?_drop,
      List.getElem?_drop, List.getElem?_append_left h1, List.getElem?_take_of_lt (by omega)]
  · rw [List.getElem?_eq_none (by rw [List.length_take]; omega),
      List.getElem?_eq_none (by rw [List.length_take]; omega)]

theorem charDriverFileRead_after_write (st : DriverState) (filp : Nat) (fh : MyFHPrivateData_t)
    (buf tail : List UInt8) (n : Nat)
    (hfh : st.private_data[filp]? = some (some fh))
    (hctx : subscript st.MyGlobalData.Contexts fh.minorDevice =
      .ok (MyMinorDevContext_t.mk
        (buf.take (min buf.length MAX_MESSAGE_LEN) ++ tail)
        ((min buf.length MAX_MESSAGE_LEN : Nat) : Int)))
    (hc : 0 ≤ fh.byteStartIndex) :
    ∃ st1, charDriverFileRead st filp n =
      .ok (st1,
        (buf.drop fh.byteStartIndex.toNat).take
          (min n (((min buf.length MAX_MESSAGE_LEN : Nat) : Int) - fh.byteStartIndex).toNat),
        ((min n (((min buf.length MAX_MESSAGE_LEN : Nat) : Int) -
          fh.byteStartIndex).toNat : Nat) : Int)) := by
  have hr := charDriverFileRead_spec st filp fh _ n hfh hctx hc
    (by simp only [List.length_append, List.length_take]; omega)
  simp only at hr
  rw [take_drop_written buf tail _ _ _ (by omega) (by omega)] at hr
  exact ⟨_, hr⟩

/-- C16: a write overwrites only the first `ret` (accepted) bytes of the buffer and
leaves the bytes behind them, stale or not, in place; yet in two states with
arbitrary earlier contents, after a write of the same input, any two later states that
still carry the written records and in which a file has the same cursor `c ≥ 0` give
that file, for the same count, the same bytes and the same return value, and the
byte delivered at output position `i` is byte `c + i` of the written input. -/
theorem no_stale_bytes (sa sb : DriverState) (wa wb : Nat) (fwa fwb : MyFHPrivateData_t)
    (ctxa ctxb : MyMinorDevContext_t) (buf : List UInt8)
    (hwa : sa.private_data[wa]? = some (some fwa))
    (hwb : sb.private_data[wb]? = some (some fwb))
    (hctxa : subscript sa.MyGlobalData.Contexts fwa.minorDevice = .ok ctxa)
    (hctxb : subscript sb.MyGlobalData.Contexts fwb.minorDevice = .ok ctxb)
    (hsizea : ctxa.Message.length = MAX_MESSAGE_LEN)
    (hsizeb : ctxb.Message.length = MAX_MESSAGE_LEN) :
    ∃ sa1 sb1 ret ctxa1 ctxb1,
      charDriverFileWrite sa wa buf buf.length = .ok (sa1, ret) ∧
      charDriverFileWrite sb wb buf buf.length = .ok (sb1, ret) ∧
      subscript sa1.MyGlobalData.Contexts fwa.minorDevice = .ok ctxa1 ∧
      subscript sb1.MyGlobalData.Contexts fwb.minorDevice = .ok ctxb1 ∧
      ctxa1.MessageLen = ret ∧ ctxb1.MessageLen = ret ∧
      ctxa1.Message.take ret.toNat = buf.take ret.toNat ∧
      ctxb1.Message.take ret.toNat = buf.take ret.toNat ∧
      ctxa1.Message.drop ret.toNat = ctxa.Message.drop ret.toNat ∧
      ctxb1.Message.drop ret.toNat = ctxb.Message.drop ret.toNat ∧
      ∀ (ta tb : DriverState) (ra rb : Nat) (fra frb : MyFHPrivateData_t) (n : Nat),
        ta.private_data[ra]? = some (some fra) →
        tb.private_data[rb]? = some (some frb) →
        subscript ta.MyGlobalData.Contexts fra.minorDevice = .ok ctxa1 →
        subscript tb.MyGlobalData.Contexts frb.minorDevice = .ok ctxb1 →
        fra.byteStartIndex = frb.byteStartIndex →
        0 ≤ fra.byteStartIndex →
        ∃ ta1 tb1 out r,
          charDriverFileRead ta ra n = .ok (ta1, out, r) ∧
          charDriverFileRead tb rb n = .ok (tb1, out, r) ∧
          (out.length : Int) = r ∧
          ∀ i : Nat, i < out.length → out[i]? = buf[fra.byteStartIndex.toNat + i]? := by
  have hwa1 := charDriverFileWrite_spec_length sa wa fwa ctxa buf hwa hctxa (by omega)
  have hwb1 := charDriverFileWrite_spec_length sb wb fwb ctxb buf hwb hctxb (by omega)
  have htake : ∀ tail : List UInt8,
      List.take (min buf.length MAX_MESSAGE_LEN)
        (buf.take (min buf.length MAX_MESSAGE_LEN) ++ tail) =
      buf.take (min buf.length MAX_MESSAGE_LEN) := by
    intro tail
    rw [List.take_append_of_le_length (by rw [List.length_take]; omega), List.take_take,
      min_self]
  have hdrop : ∀ tail : List UInt8,
      List.drop (min buf.length MAX_MESSAGE_LEN)
        (buf.take (min buf.length MAX_MESSAGE_LEN) ++ tail) = tail := by
    intro tail
    rw [List.drop_append_of_le_length (by rw [List.length_take]; omega),
      List.drop_of_length_le (by rw [List.length_take]; omega), List.nil_append]
  refine ⟨_, _, _, _, _, hwa1, hwb1, subscript_set _ _ ctxa _ hctxa,
    subscript_set _ _ ctxb _ hctxb, rfl, rfl, ?_, ?_, ?_, ?_, ?_⟩
  · simp only [Int.toNat_ofNat]
    exact htake _
  · simp only [Int.toNat_ofNat]
    exact htake _
  · simp only [Int.toNat_ofNat]
    rw [hdrop]
  · simp only [Int.toNat_ofNat]
    rw [hdrop]
  · intro ta tb ra rb fra frb n hra hrb hta htb hcur hc
    obtain ⟨ta1, hra1⟩ := charDriverFileRead_after_write ta ra fra buf _ n hra hta hc
    obtain ⟨tb1, hrb1⟩ := charDriverFileRead_after_write tb rb frb buf _ n hrb htb
      (by rw [← hcur]; exact hc)
    rw [← hcur] at hrb1
    refine ⟨ta1, tb1, _, _, hra1, hrb1, ?_, ?_⟩
    · rw [List.length_take, List.length_drop]
      omega
    · intro i hi
      rw [List.length_take] at hi
      rw [List.getElem?_take_of_lt (by omega), List.getElem?_drop]

theorem no_stale_bytes_witness :
    ∃ sa1 sb1 ret ctxa1 ctxb1,
      charDriverFileWrite helloState 1 [72, 105] ([72, 105] : List UInt8).length =
        .ok (sa1, ret) ∧
      charDriverFileWrite abState 0 [72, 105] ([72, 105] : List UInt8).length =
        .ok (sb1, ret) ∧
      subscript sa1.MyGlobalData.Contexts 0 = .ok ctxa1 ∧
      subscript sb1.MyGlobalData.Contexts 1 = .ok ctxb1 ∧
      ctxa1.MessageLen = ret ∧ ctxb1.MessageLen = ret ∧
      ctxa1.Message.take ret.toNat = ([72, 105] : List UInt8).take ret.toNat ∧
      ctxb1.Message.take ret.toNat = ([72, 105] : List UInt8).take ret.toNat ∧
      ctxa1.Message.drop ret.toNat = helloContext.Message.drop ret.toNat ∧
      ctxb1.Message.drop ret.toNat =
        (MyMinorDevContext_t.mk ([65, 66] ++ List.replicate 254 0) 2).Message.drop ret.toNat ∧
      ∀ (ta tb : DriverState) (ra rb : Nat) (fra frb : MyFHPrivateData_t) (n : Nat),
        ta.private_data[ra]? = some (some fra) →
        tb.private_data[rb]? = some (some frb) →
        subscript ta.MyGlobalData.Contexts fra.minorDevice = .ok ctxa1 →
        subscript tb.MyGlobalData.Contexts frb.minorDevice = .ok ctxb1 →
        fra.byteStartIndex = frb.byteStartIndex →
        0 ≤ fra.byteStartIndex →
        ∃ ta1 tb1 out r,
          charDriverFileRead ta ra n = .ok (ta1, out, r) ∧
          charDriverFileRead tb rb n = .ok (tb1, out, r) ∧
          (out.length : Int) = r ∧
          ∀ i : Nat, i < out.length →
            out[i]? = ([72, 105] : List UInt8)[fra.byteStartIndex.toNat + i]? :=
  no_stale_bytes helloState abState 1 0 (MyFHPrivateData_t.mk 0 0) (MyFHPrivateData_t.mk 1 1)
    helloContext (MyMinorDevContext_t.mk ([65, 66] ++ List.replicate 254 0) 2) [72, 105]
    (by decide) (by decide) (by decide!) (by decide!) (by decide!) (by decide!)

/-- C3 (evaluation at the failing input): from the initial state, a write of 300
bytes `x` through a file opened on minor device 0 returns 256, not 255, stores a
message of length 256, and a following read of 300 bytes delivers 256 bytes. -/
theorem charDriverFileWrite_300_bytes_stores_256 :
    (run initialState [Op.open 0, Op.write 0 (List.replicate 300 120), Op.read 0 300]).map
        (fun r => ((contextOf r.1 0).map (fun ctx => ctx.MessageLen), r.2)) =
      .ok (some 256, [Result.opened 0 0, Result.written 256,
        Result.readDone (List.replicate 256 120) 256]) := by
  rw [initialState_eq]
  have hctx : subscript MyGlobalData_static.Contexts 0 =
      .ok (MyMinorDevContext_t.mk (List.replicate MAX_MESSAGE_LEN 0) 0) := rfl
  have hopen : step (DriverState.mk MyGlobalData_static []) (Op.open 0) =
      .ok (DriverState.mk MyGlobalData_static [some (MyFHPrivateData_t.mk 0 0)],
        Result.opened 0 0) := rfl
  have hw := charDriverFileWrite_spec_length
    (DriverState.mk MyGlobalData_static [some (MyFHPrivateData_t.mk 0 0)]) 0
    (MyFHPrivateData_t.mk 0 0) _ (List.replicate 300 120) rfl hctx
    (by simp only [List.length_replicate]; exact min_le_right _ _)
  have hctx2 := subscript_set MyGlobalData_static.Contexts 0 _
    (MyMinorDevContext_t.mk
      ((List.replicate 300 (120 : UInt8)).take
          (min (List.replicate 300 (120 : UInt8)).length MAX_MESSAGE_LEN) ++
        (List.replicate MAX_MESSAGE_LEN (0 : UInt8)).drop
          (min (List.replicate 300 (120 : UInt8)).length MAX_MESSAGE_LEN))
      ((min (List.replicate 300 (120 : UInt8)).length MAX_MESSAGE_LEN : Nat) : Int)) hctx
  obtain ⟨st3, hr⟩ := charDriverFileRead_after_write
    (DriverState.mk (MyGlobalData_t.mk (MyGlobalData_static.Contexts.set (0 : Int).toNat
      (MyMinorDevContext_t.mk
        ((List.replicate 300 (120 : UInt8)).take
            (min (List.replicate 300 (120 : UInt8)).length MAX_MESSAGE_LEN) ++
          (List.replicate MAX_MESSAGE_LEN (0 : UInt8)).drop
            (min (List.replicate 300 (120 : UInt8)).length MAX_MESSAGE_LEN))
        ((min (List.replicate 300 (120 : UInt8)).length MAX_MESSAGE_LEN : Nat) : Int))))
      [some (MyFHPrivateData_t.mk 0 0)]) 0 (MyFHPrivateData_t.mk 0 0)
    (List.replicate 300 120) _ 300 rfl hctx2 (le_refl _)
  have hg := charDriverFileRead_globalData _ _ _ _ _ _ hr
  have hlen : min (List.replicate 300 (120 : UInt8)).length MAX_MESSAGE_LEN = 256 := by
    rw [List.length_replicate]
    rfl
  have hnum : min 300 (((256 : Nat) : Int) - 0).toNat = 256 := by omega
  have hget := subscript_getElem? _ _ _ hctx2
  have h256 : min 256 300 = 256 := rfl
  simp only [hlen] at hr hw hget hg
  simp only [run, hopen, step_write _ _ _ _ _ hw, step_read _ _ _ _ _ _ hr, Except.map,
    contextOf, hg, hget]
  have hnum2 : min 300 ((256 : Int) - 0).toNat = 256 := by omega
  simp only [Int.toNat_zero, List.take_replicate, h256, Nat.cast_ofNat] at hget
  simp only [hnum, hnum2, Int.toNat_zero, List.drop_zero, List.take_replicate, h256,
    Nat.cast_ofNat, hget, Option.map_some']

end SimpleCharacterDriver
